import Mathlib

/-! S5PV310 dynamic CPU hotplug (`arch/arm/mach-s5pv310/pm-hotplug.c`)

A shallow embedding of the hotplug control loop (`hotplug_timer`), of the PM,
reboot and early-suspend notifiers, and the properties of them that the design
document states.

Conventions of the embedding:

* `unsigned int` values are natural numbers; every operation that can wrap is
  written with an explicit `% 2 ^ 32`.  `cputime64_t` values are natural numbers
  and the 64-bit subtraction wraps with `% 2 ^ 64`.
* The module's global variables, the per-CPU array and the kernel's online mask
  are the fields of `State`; every handler runs under `hotplug_lock`, so each is
  one atomic transition of that state.
* What a handler asks of the kernel is recorded in its `Outcome`: the calls of
  `cpu_down`/`cpu_up` in `power`, the calls of `queue_delayed_work_on` in
  `queued`.
* An integer division by zero is a fault: C leaves it undefined, and what the
  target does after it is outside this file, so the function returns
  `Except.error` there.  What a tick does is therefore stated for the ticks that
  complete, together with conditions under which a tick does complete.
-/

namespace PmHotplug

/-! ## Constants and data -/

/-- Kernel configuration constants that the file uses and does not define: the
timer frequency `HZ` and the number of possible CPU ids `nr_cpu_ids`.  `HZ` is a
small compile-time constant, so `HZ >> 1` and `CHECK_DELAY * 4` are computed
without wrap-around. -/
structure Platform where
  HZ : Nat
  nr_cpu_ids : Nat
deriving DecidableEq, Repr

/-- The macro `CHECK_DELAY`, `(HZ >> 1)`. -/
def CHECK_DELAY (p : Platform) : Nat := p.HZ >>> 1

/-- The macro `TRANS_LOAD_L`. -/
def TRANS_LOAD_L : Nat := 20

/-- The macro `TRANS_LOAD_H`, `(TRANS_LOAD_L*3)`. -/
def TRANS_LOAD_H : Nat := TRANS_LOAD_L * 3

/-- The macro `HOTPLUG_UNLOCKED`. -/
def HOTPLUG_UNLOCKED : Nat := 0

/-- The macro `HOTPLUG_LOCKED`. -/
def HOTPLUG_LOCKED : Nat := 1

/-- The per-CPU record `struct cpu_time_info`. -/
structure cpu_time_info where
  prev_cpu_idle : Nat
  prev_cpu_wall : Nat
  load : Nat
deriving DecidableEq, Repr

/-- The mutable state the handlers share: the four module parameters, the
per-CPU array `hotplug_cpu_time`, the flag `screen_off`, the function-static
`user_lock_saved` of the PM notifier, and the kernel's `cpu_online_mask`. -/
structure State where
  hotpluging_rate : Nat
  user_lock : Nat
  trans_load_l : Nat
  trans_load_h : Nat
  hotplug_cpu_time : Nat → cpu_time_info
  screen_off : Bool
  user_lock_saved : Nat
  cpu_online_mask : Nat → Bool

/-- The state after module load: the static initialisers of the file. -/
def init_state (p : Platform) (mask : Nat → Bool) : State where
  hotpluging_rate := CHECK_DELAY p
  user_lock := HOTPLUG_UNLOCKED
  trans_load_l := TRANS_LOAD_L
  trans_load_h := TRANS_LOAD_H
  hotplug_cpu_time := fun _ => ⟨0, 0, 0⟩
  screen_off := false
  user_lock_saved := 0
  cpu_online_mask := mask

/-- A call of `cpu_down(cpu)` or `cpu_up(cpu)`. -/
inductive PowerRequest where
  | cpu_down (cpu : Nat)
  | cpu_up (cpu : Nat)
deriving DecidableEq, Repr

/-- A call `queue_delayed_work_on(cpu, hotplug_wq, &hotplug_work, delay)`. -/
structure QueuedWork where
  cpu : Nat
  delay : Nat
deriving DecidableEq, Repr

/-- What one handler invocation leaves behind: the new state and the requests
it made, in the order it made them. -/
structure Outcome where
  state : State
  power : List PowerRequest
  queued : List QueuedWork

/-- The ways an invocation can fail to complete. -/
inductive Fault where
  | div_by_zero
deriving DecidableEq, Repr

/-- What the kernel answers during one run of `hotplug_timer`:
`get_cpu_idle_time_us(i, &cur_wall_time)` as the pair
`(cur_idle_time, cur_wall_time)`, and the return value of the `cpu_down` or
`cpu_up` call (0 on success, a negative errno otherwise). -/
structure TickEnv where
  get_cpu_idle_time_us : Nat → Nat × Nat
  cpu_hotplug_ret : Int

/-! ## Kernel helpers -/

/-- Modelled from the spec: the kernel macro `cpu_online(cpu)` (the spec's
`is_core_online`) is not defined in this file; it is the bit of `cpu` in the
online mask, which has `nr_cpu_ids` bits. -/
def cpu_online (p : Platform) (s : State) (cpu : Nat) : Bool :=
  decide (cpu < p.nr_cpu_ids) && s.cpu_online_mask cpu

/-- Modelled from the spec: the kernel macro `for_each_online_cpu(i)` is not
defined in this file; it visits every currently-online CPU, in increasing order
of the CPU id. -/
def for_each_online_cpu (p : Platform) (s : State) : List Nat :=
  (List.range p.nr_cpu_ids).filter (fun i => s.cpu_online_mask i)

/-- Modelled from the spec: the kernel macro `num_online_cpus()` is not defined
in this file; it is the number of currently-online CPUs. -/
def num_online_cpus (p : Platform) (s : State) : Nat :=
  (for_each_online_cpu p s).length

/-- Modelled from the spec: the macro `cputime64_sub` is not defined in this file;
it is the delta of two 64-bit counters, current minus previous, which in
unsigned 64-bit arithmetic wraps modulo `2 ^ 64`. -/
def cputime64_sub (a b : Nat) : Nat :=
  (a % 2 ^ 64 + 2 ^ 64 - b % 2 ^ 64) % 2 ^ 64

/-- The cast `(unsigned int)` of a 64-bit value. -/
def to_uint (x : Nat) : Nat := x % 2 ^ 32

/-- Modelled from the spec: `cpu_down` is the kernel's core power-change
capability, not defined in this file; when it reports success (0) the CPU is
offline afterwards, when it reports failure the online mask is as before. -/
def cpu_down (ret : Int) (cpu : Nat) (s : State) : State :=
  if ret = 0 then { s with cpu_online_mask := Function.update s.cpu_online_mask cpu false }
  else s

/-- Modelled from the spec: `cpu_up` is the kernel's core power-change
capability, not defined in this file; when it reports success (0) the CPU is
online afterwards, when it reports failure the online mask is as before. -/
def cpu_up (ret : Int) (cpu : Nat) (s : State) : State :=
  if ret = 0 then { s with cpu_online_mask := Function.update s.cpu_online_mask cpu true }
  else s

/-! ## The control loop `hotplug_timer` -/

/-- How one iteration of the `for_each_online_cpu` body ends. -/
inductive BodyExit where
  /-- the iteration ran to its end; the argument is the new running `load` -/
  | next (load : Nat)
  /-- the iteration left by `goto no_hotplug` -/
  | no_hotplug
  /-- the iteration divided by `wall_time = 0` -/
  | div_by_zero
deriving DecidableEq, Repr

/-- The value `idle_time` of one iteration: the truncated idle delta. -/
def idle_time (env : TickEnv) (pc : Nat → cpu_time_info) (i : Nat) : Nat :=
  to_uint (cputime64_sub (env.get_cpu_idle_time_us i).1 (pc i).prev_cpu_idle)

/-- The value `wall_time` of one iteration: the truncated wall delta. -/
def wall_time (env : TickEnv) (pc : Nat → cpu_time_info) (i : Nat) : Nat :=
  to_uint (cputime64_sub (env.get_cpu_idle_time_us i).2 (pc i).prev_cpu_wall)

/-- The value stored into `tmp_info->load`: `100 * (wall_time - idle_time) /
wall_time` in `unsigned int` arithmetic (reached only with
`idle_time <= wall_time`, so the subtraction does not wrap; the product can). -/
def load_of (wall idle : Nat) : Nat :=
  (100 * (wall - idle)) % 2 ^ 32 / wall

/-- The body of the `for_each_online_cpu` loop for CPU `i`, on the per-CPU array
`pc` and the running sum `load`.  Both baselines are stored before the test
`wall_time < idle_time`. -/
def loop_body (env : TickEnv) (i : Nat) (pc : Nat → cpu_time_info) (load : Nat) :
    (Nat → cpu_time_info) × BodyExit :=
  let tmp_info := pc i
  let cur_idle_time := (env.get_cpu_idle_time_us i).1
  let cur_wall_time := (env.get_cpu_idle_time_us i).2
  let idle := idle_time env pc i
  let wall := wall_time env pc i
  let tmp1 : cpu_time_info :=
    { tmp_info with prev_cpu_idle := cur_idle_time, prev_cpu_wall := cur_wall_time }
  if wall < idle then
    (Function.update pc i tmp1, BodyExit.no_hotplug)
  else if wall = 0 then
    (Function.update pc i tmp1, BodyExit.div_by_zero)
  else
    let tmp2 : cpu_time_info := { tmp1 with load := load_of wall idle }
    (Function.update pc i tmp2, BodyExit.next ((load + tmp2.load) % 2 ^ 32))

/-- How the whole `for_each_online_cpu` loop ends. -/
inductive LoopExit where
  /-- every online CPU was visited; the argument is the final `load` -/
  | completed (load : Nat)
  /-- some iteration left by `goto no_hotplug` -/
  | no_hotplug
  /-- some iteration divided by zero -/
  | div_by_zero
deriving DecidableEq, Repr

/-- The loop `for_each_online_cpu(i) { ... }` over the CPUs `cpus`. -/
def sample_loop (env : TickEnv) :
    List Nat → (Nat → cpu_time_info) → Nat → (Nat → cpu_time_info) × LoopExit
  | [], pc, load => (pc, LoopExit.completed load)
  | i :: rest, pc, load =>
    match loop_body env i pc load with
    | (pc1, BodyExit.next load1) => sample_loop env rest pc1 load1
    | (pc1, BodyExit.no_hotplug) => (pc1, LoopExit.no_hotplug)
    | (pc1, BodyExit.div_by_zero) => (pc1, LoopExit.div_by_zero)

/-- The measurement of CPU `i` is valid: `idle_time <= wall_time` and
`wall_time > 0`, for the deltas the loop computes against the array `pc`. -/
def measurement_valid (env : TickEnv) (pc : Nat → cpu_time_info) (i : Nat) : Bool :=
  decide (idle_time env pc i ≤ wall_time env pc i) && decide (0 < wall_time env pc i)

/-- The label `no_hotplug:`: queue the work on CPU 0 with the current rate. -/
def no_hotplug (s : State) (power : List PowerRequest) : Outcome :=
  ⟨s, power, [⟨0, s.hotpluging_rate⟩]⟩

/-- The code from `avg_load = load / num_online_cpus()` to the label
`no_hotplug:`, for a state `s` whose per-CPU array is already updated. -/
def decide_hotplug (p : Platform) (env : TickEnv) (s : State) (load : Nat) :
    Except Fault Outcome :=
  if num_online_cpus p s = 0 then Except.error Fault.div_by_zero
  else
    let avg_load := load / num_online_cpus p s
    if avg_load < s.trans_load_l ∧ cpu_online p s 1 = true then
      let s1 := cpu_down env.cpu_hotplug_ret 1 s
      Except.ok (no_hotplug { s1 with hotpluging_rate := CHECK_DELAY p } [PowerRequest.cpu_down 1])
    else if avg_load > s.trans_load_h ∧ cpu_online p s 1 = false then
      let s1 := cpu_up env.cpu_hotplug_ret 1 s
      Except.ok (no_hotplug { s1 with hotpluging_rate := CHECK_DELAY p * 4 } [PowerRequest.cpu_up 1])
    else
      Except.ok (no_hotplug s [])

/-- The work function `hotplug_timer`. -/
def hotplug_timer (p : Platform) (env : TickEnv) (s : State) : Except Fault Outcome :=
  if s.screen_off = true ∧ cpu_online p s 1 = false then
    Except.ok ⟨s, [], []⟩
  else if s.user_lock = 1 then
    Except.ok (no_hotplug s [])
  else
    match sample_loop env (for_each_online_cpu p s) s.hotplug_cpu_time 0 with
    | (pc, LoopExit.completed load) =>
      decide_hotplug p env { s with hotplug_cpu_time := pc } load
    | (pc, LoopExit.no_hotplug) =>
      Except.ok (no_hotplug { s with hotplug_cpu_time := pc } [])
    | (_, LoopExit.div_by_zero) => Except.error Fault.div_by_zero

/-- The value of the local `avg_load` with which `hotplug_timer` reaches the
decision step (the `if` after `avg_load = load / num_online_cpus()`), or `none`
when this run does not reach it: it left at `goto out` or `goto no_hotplug`, or
it divided by zero. -/
def decision_avg_load (p : Platform) (env : TickEnv) (s : State) : Option Nat :=
  if s.screen_off = true ∧ cpu_online p s 1 = false then none
  else if s.user_lock = 1 then none
  else
    match sample_loop env (for_each_online_cpu p s) s.hotplug_cpu_time 0 with
    | (_, LoopExit.completed load) =>
      if num_online_cpus p s = 0 then none else some (load / num_online_cpus p s)
    | _ => none

/-- The request the decision step makes for an average load `avg_load`, given
the two thresholds and whether CPU 1 is online: the two conditions of the
`if` / `else if` of `hotplug_timer`, without the state. -/
def hotplug_request (trans_load_l trans_load_h avg_load : Nat) (cpu1_online : Bool) :
    Option PowerRequest :=
  if avg_load < trans_load_l ∧ cpu1_online = true then some (PowerRequest.cpu_down 1)
  else if avg_load > trans_load_h ∧ cpu1_online = false then some (PowerRequest.cpu_up 1)
  else none

/-! ## The notifiers -/

/-- The argument `event` of the PM notifier.  The three constants the `switch`
names are constructors (case labels of one `switch` are pairwise different);
`other` stands for every other value, which takes the `switch` to its end. -/
inductive pm_event where
  | PM_SUSPEND_PREPARE
  | PM_POST_RESTORE
  | PM_POST_SUSPEND
  | other (code : Nat)
deriving DecidableEq, Repr

/-- The values a notifier returns. -/
inductive notify_ret where
  | NOTIFY_DONE
  | NOTIFY_OK
deriving DecidableEq, Repr

/-- The PM notifier `s5pv310_pm_hotplug_notifier_event`: the new state and the
value returned. -/
def s5pv310_pm_hotplug_notifier_event (event : pm_event) (s : State) : State × notify_ret :=
  match event with
  | pm_event.PM_SUSPEND_PREPARE =>
    ({ s with user_lock_saved := s.user_lock, user_lock := 1 }, notify_ret.NOTIFY_OK)
  | pm_event.PM_POST_RESTORE =>
    ({ s with user_lock := s.user_lock_saved }, notify_ret.NOTIFY_OK)
  | pm_event.PM_POST_SUSPEND =>
    ({ s with user_lock := s.user_lock_saved }, notify_ret.NOTIFY_OK)
  | pm_event.other _ => (s, notify_ret.NOTIFY_DONE)

/-- The reboot notifier `hotplug_reboot_notifier_call`: the new state and the
value returned. -/
def hotplug_reboot_notifier_call (s : State) : State × notify_ret :=
  ({ s with user_lock := 1 }, notify_ret.NOTIFY_DONE)

/-- The early-suspend handler `hotplug_early_suspend` (the screen goes off). -/
def hotplug_early_suspend (s : State) : State :=
  { s with screen_off := true }

/-- The late-resume handler `hotplug_late_resume` (the screen comes on). -/
def hotplug_late_resume (s : State) : Outcome :=
  let s1 : State := { s with screen_off := false }
  ⟨s1, [], [⟨0, s1.hotpluging_rate⟩]⟩

/-! ## Sequences of handler invocations -/

/-- One invocation of a handler of the module. -/
inductive Event where
  /-- the delayed work runs: `hotplug_timer` -/
  | tick (env : TickEnv)
  /-- the PM notifier is called with the given event -/
  | pm_notify (event : pm_event)
  /-- the reboot notifier is called -/
  | reboot_notify
  /-- the early-suspend handler is called: screen off -/
  | early_suspend
  /-- the late-resume handler is called: screen on -/
  | late_resume

/-- The effect of one handler invocation. -/
def step (p : Platform) (s : State) : Event → Except Fault Outcome
  | Event.tick env => hotplug_timer p env s
  | Event.pm_notify event => Except.ok ⟨(s5pv310_pm_hotplug_notifier_event event s).1, [], []⟩
  | Event.reboot_notify => Except.ok ⟨(hotplug_reboot_notifier_call s).1, [], []⟩
  | Event.early_suspend => Except.ok ⟨hotplug_early_suspend s, [], []⟩
  | Event.late_resume => Except.ok (hotplug_late_resume s)

/-- The effect of a sequence of handler invocations, each one atomic under
`hotplug_lock`: the final state and all requests made, in order. -/
def run (p : Platform) : State → List Event → Except Fault Outcome
  | s, [] => Except.ok ⟨s, [], []⟩
  | s, e :: es =>
    match step p s e with
    | Except.error f => Except.error f
    | Except.ok o =>
      match run p o.state es with
      | Except.error f => Except.error f
      | Except.ok o1 => Except.ok ⟨o1.state, o.power ++ o1.power, o.queued ++ o1.queued⟩

/-- The event is a tick or a display event (screen off, screen on). -/
def is_tick_or_display : Event → Bool
  | Event.tick _ => true
  | Event.early_suspend => true
  | Event.late_resume => true
  | _ => false

/-- The first suspend/resume notification of the sequence, if there is one, is
`PM_SUSPEND_PREPARE` (and not `PM_POST_SUSPEND` or `PM_POST_RESTORE`). -/
def first_pm_is_prepare : List Event → Bool
  | [] => true
  | Event.pm_notify pm_event.PM_SUSPEND_PREPARE :: _ => true
  | Event.pm_notify pm_event.PM_POST_RESTORE :: _ => false
  | Event.pm_notify pm_event.PM_POST_SUSPEND :: _ => false
  | _ :: es => first_pm_is_prepare es

/-- The event is one of the three suspend/resume notifications the PM notifier
acts on: `PM_SUSPEND_PREPARE`, `PM_POST_RESTORE` or `PM_POST_SUSPEND`. -/
def is_suspend_resume : Event → Bool
  | Event.pm_notify pm_event.PM_SUSPEND_PREPARE => true
  | Event.pm_notify pm_event.PM_POST_RESTORE => true
  | Event.pm_notify pm_event.PM_POST_SUSPEND => true
  | _ => false

/-- What can happen to the state: a handler of the module runs, or the kernel
changes the set of online CPUs for a reason outside the module. -/
inductive WorldEvent where
  /-- a handler of the module runs -/
  | handler (e : Event)
  /-- the online mask becomes `mask` -/
  | set_online (mask : Nat → Bool)

/-- The effect of one world event. -/
def world_step (p : Platform) (s : State) : WorldEvent → Except Fault Outcome
  | WorldEvent.handler e => step p s e
  | WorldEvent.set_online mask => Except.ok ⟨{ s with cpu_online_mask := mask }, [], []⟩

/-- The effect of a sequence of world events: the final state and all requests
made, in order. -/
def run_world (p : Platform) : State → List WorldEvent → Except Fault Outcome
  | s, [] => Except.ok ⟨s, [], []⟩
  | s, e :: es =>
    match world_step p s e with
    | Except.error f => Except.error f
    | Except.ok o =>
      match run_world p o.state es with
      | Except.error f => Except.error f
      | Except.ok o1 => Except.ok ⟨o1.state, o.power ++ o1.power, o.queued ++ o1.queued⟩

/-! ## Concrete platforms, states and readings used in the examples -/

/-- A dual-core platform with `HZ = 200`. -/
def dual_core : Platform := ⟨200, 2⟩

/-- Readings that are the same for every CPU. -/
def const_env (idle wall : Nat) (ret : Int) : TickEnv := ⟨fun _ => (idle, wall), ret⟩

/-- A state with the given rate, lock, thresholds, screen flag and online mask,
and with every per-CPU sample zero, as after module load. -/
def sample_state (rate lock low high : Nat) (screen : Bool) (mask : Nat → Bool) : State where
  hotpluging_rate := rate
  user_lock := lock
  trans_load_l := low
  trans_load_h := high
  hotplug_cpu_time := fun _ => ⟨0, 0, 0⟩
  screen_off := screen
  user_lock_saved := 0
  cpu_online_mask := mask

/-- The state `s` with every CPU's stored baselines set to `idle` and `wall`. -/
def with_baseline (s : State) (idle wall : Nat) : State :=
  { s with hotplug_cpu_time := fun _ => ⟨idle, wall, 0⟩ }

/-- Readings `r0` for CPU 0 and `r1` for every other CPU. -/
def per_cpu_env (r0 r1 : Nat × Nat) (ret : Int) : TickEnv :=
  ⟨fun i => if i = 0 then r0 else r1, ret⟩

/-- The online mask with only CPU 0 online. -/
def only_cpu0 : Nat → Bool := fun i => decide (i = 0)

/-- The online mask with CPU 0 and CPU 1 online. -/
def both_cpus : Nat → Bool := fun i => decide (i < 2)

/-- A platform with three possible CPUs and `HZ = 200`. -/
def tri_core : Platform := ⟨200, 3⟩

/-- The online mask with CPU 0, CPU 1 and CPU 2 online. -/
def three_cpus : Nat → Bool := fun i => decide (i < 3)

/-! ## Shared lemmas about `hotplug_timer` -/

/-- The decision step, as a function of the average load and of whether CPU 1 is
online: which request is made and which rate is written, if any. -/
lemma decide_hotplug_ok (p : Platform) (env : TickEnv) (s : State) (load : Nat)
    (hn : num_online_cpus p s ≠ 0) :
    ∃ o, decide_hotplug p env s load = Except.ok o ∧
      o.queued = [⟨0, o.state.hotpluging_rate⟩] ∧
      o.state.hotplug_cpu_time = s.hotplug_cpu_time ∧
      (env.cpu_hotplug_ret ≠ 0 → o.state.cpu_online_mask = s.cpu_online_mask) ∧
      ((load / num_online_cpus p s < s.trans_load_l ∧ cpu_online p s 1 = true) →
        o.power = [PowerRequest.cpu_down 1] ∧ o.state.hotpluging_rate = CHECK_DELAY p) ∧
      (¬ (load / num_online_cpus p s < s.trans_load_l ∧ cpu_online p s 1 = true) →
        (load / num_online_cpus p s > s.trans_load_h ∧ cpu_online p s 1 = false) →
        o.power = [PowerRequest.cpu_up 1] ∧ o.state.hotpluging_rate = CHECK_DELAY p * 4) ∧
      (¬ (load / num_online_cpus p s < s.trans_load_l ∧ cpu_online p s 1 = true) →
        ¬ (load / num_online_cpus p s > s.trans_load_h ∧ cpu_online p s 1 = false) →
        o.power = [] ∧ o.state = s) := by
  unfold decide_hotplug
  rw [if_neg hn]
  by_cases h1 : load / num_online_cpus p s < s.trans_load_l ∧ cpu_online p s 1 = true
  · simp only [if_pos h1]
    refine ⟨_, rfl, rfl, ?_, ?_, fun _ => ⟨rfl, rfl⟩, fun h => absurd h1 h,
      fun h => absurd h1 h⟩
    · unfold cpu_down no_hotplug
      split <;> rfl
    · intro hret
      unfold cpu_down no_hotplug
      rw [if_neg hret]
  · simp only [if_neg h1]
    by_cases h2 : load / num_online_cpus p s > s.trans_load_h ∧ cpu_online p s 1 = false
    · simp only [if_pos h2]
      refine ⟨_, rfl, rfl, ?_, ?_, fun h => absurd h h1, fun _ _ => ⟨rfl, rfl⟩,
        fun _ h => absurd h2 h⟩
      · unfold cpu_up no_hotplug
        split <;> rfl
      · intro hret
        unfold cpu_up no_hotplug
        rw [if_neg hret]
    · simp only [if_neg h2]
      exact ⟨_, rfl, rfl, rfl, fun _ => rfl, fun h => absurd h h1, fun _ h => absurd h h2,
        fun _ _ => ⟨rfl, rfl⟩⟩

/-- A run that reaches the decision step is the decision step applied to the
state with the per-CPU array the sampling loop leaves. -/
lemma hotplug_timer_of_decision (p : Platform) (env : TickEnv) (s : State) (avg : Nat)
    (h : decision_avg_load p env s = some avg) :
    ∃ pc load,
      sample_loop env (for_each_online_cpu p s) s.hotplug_cpu_time 0
        = (pc, LoopExit.completed load) ∧
      num_online_cpus p s ≠ 0 ∧ avg = load / num_online_cpus p s ∧
      ¬ (s.screen_off = true ∧ cpu_online p s 1 = false) ∧ s.user_lock ≠ 1 ∧
      hotplug_timer p env s = decide_hotplug p env { s with hotplug_cpu_time := pc } load := by
  unfold decision_avg_load at h
  by_cases h1 : s.screen_off = true ∧ cpu_online p s 1 = false
  · rw [if_pos h1] at h; cases h
  rw [if_neg h1] at h
  by_cases h2 : s.user_lock = 1
  · rw [if_pos h2] at h; cases h
  rw [if_neg h2] at h
  rcases hl : sample_loop env (for_each_online_cpu p s) s.hotplug_cpu_time 0 with ⟨pc, ex⟩
  rw [hl] at h
  cases ex with
  | completed load =>
    simp only at h
    by_cases h3 : num_online_cpus p s = 0
    · rw [if_pos h3] at h; cases h
    rw [if_neg h3] at h
    refine ⟨pc, load, rfl, h3, ?_, h1, h2, ?_⟩
    · exact (Option.some.inj h).symm
    · unfold hotplug_timer
      rw [if_neg h1, if_neg h2, hl]
  | no_hotplug => simp at h
  | div_by_zero => simp at h

/-! ## Shared lemmas about the sampling loop -/

/-- One iteration touches only the sample of its own CPU. -/
lemma loop_body_frame (env : TickEnv) (i j : Nat) (pc : Nat → cpu_time_info) (load : Nat)
    (hj : j ≠ i) : (loop_body env i pc load).1 j = pc j := by
  unfold loop_body
  simp only
  split
  · exact Function.update_noteq hj _ _
  · split <;> exact Function.update_noteq hj _ _

/-- One iteration runs to its end exactly when the measurement is valid. -/
lemma loop_body_next_iff (env : TickEnv) (i : Nat) (pc : Nat → cpu_time_info) (load : Nat) :
    (∃ l, (loop_body env i pc load).2 = BodyExit.next l) ↔ measurement_valid env pc i = true := by
  unfold loop_body measurement_valid
  simp only [Bool.and_eq_true, decide_eq_true_eq]
  by_cases h1 : wall_time env pc i < idle_time env pc i
  · rw [if_pos h1]
    constructor
    · rintro ⟨l, hl⟩; cases hl
    · rintro ⟨h2, -⟩; omega
  · rw [if_neg h1]
    by_cases h2 : wall_time env pc i = 0
    · rw [if_pos h2]
      constructor
      · rintro ⟨l, hl⟩; cases hl
      · rintro ⟨-, h3⟩; omega
    · rw [if_neg h2]
      exact ⟨fun _ => ⟨by omega, by omega⟩, fun _ => ⟨_, rfl⟩⟩

/-- The validity of a measurement depends only on the sample of that CPU. -/
lemma measurement_valid_congr (env : TickEnv) (pc pc1 : Nat → cpu_time_info) (j : Nat)
    (h : pc1 j = pc j) : measurement_valid env pc1 j = measurement_valid env pc j := by
  unfold measurement_valid idle_time wall_time
  rw [h]

/-- The sample one iteration stores for its CPU depends only on the sample it
finds for that CPU, not on the running sum nor on the other samples. -/
lemma loop_body_congr (env : TickEnv) (i : Nat) (pc pc1 : Nat → cpu_time_info)
    (load load1 : Nat) (h : pc1 i = pc i) :
    (loop_body env i pc1 load1).1 i = (loop_body env i pc load).1 i := by
  unfold loop_body idle_time wall_time
  simp only [h]
  split
  · simp only [Function.update_same]
  · split <;> simp only [Function.update_same]

/-- When the loop visits every CPU of a duplicate-free list, the sample it leaves
for a visited CPU is the one that CPU's iteration stores from the sample at the
start of the loop, and the sample of every other CPU is as before. -/
lemma sample_loop_result (env : TickEnv) (cpus : List Nat) :
    ∀ (pc : Nat → cpu_time_info) (load : Nat), cpus.Nodup →
      (∃ l, (sample_loop env cpus pc load).2 = LoopExit.completed l) →
      (∀ i ∈ cpus, (sample_loop env cpus pc load).1 i = (loop_body env i pc 0).1 i) ∧
        ∀ j, j ∉ cpus → (sample_loop env cpus pc load).1 j = pc j := by
  induction cpus with
  | nil => intro pc load _ _; simp [sample_loop]
  | cons k rest ih =>
    intro pc load hnd hc
    have hk : k ∉ rest := (List.nodup_cons.mp hnd).1
    have hrest : rest.Nodup := (List.nodup_cons.mp hnd).2
    have hfr : ∀ j, j ≠ k → (loop_body env k pc load).1 j = pc j :=
      fun j hj => loop_body_frame env k j pc load hj
    have hkk : (loop_body env k pc load).1 k = (loop_body env k pc 0).1 k :=
      loop_body_congr env k pc pc 0 load rfl
    rcases hlb : loop_body env k pc load with ⟨pc1, ex⟩
    rw [hlb] at hfr hkk
    simp only [sample_loop, hlb] at hc ⊢
    cases ex with
    | next l1 =>
      simp only at hc ⊢
      obtain ⟨hin, hout⟩ := ih pc1 l1 hrest hc
      constructor
      · intro i hi
        rcases List.mem_cons.mp hi with h | h
        · subst h; rw [hout i hk]; exact hkk
        · have hik : i ≠ k := fun e => hk (e ▸ h)
          rw [hin i h]
          exact loop_body_congr env i pc pc1 0 0 (hfr i hik)
      · intro j hj
        have hjk : j ≠ k := fun e => hj (e ▸ List.mem_cons_self _ _)
        have hjr : j ∉ rest := fun e => hj (List.mem_cons_of_mem _ e)
        rw [hout j hjr]; exact hfr j hjk
    | no_hotplug => obtain ⟨l, hl⟩ := hc; cases hl
    | div_by_zero => obtain ⟨l, hl⟩ := hc; cases hl

/-- The list `for_each_online_cpu` visits has no duplicates. -/
lemma for_each_online_cpu_nodup (p : Platform) (s : State) :
    (for_each_online_cpu p s).Nodup :=
  (List.nodup_range p.nr_cpu_ids).filter _

/-- What a run that reaches the decision step with average load `avg` does, as
a function of `avg` and of whether CPU 1 is online. -/
lemma hotplug_timer_decision (p : Platform) (env : TickEnv) (s : State) (avg : Nat)
    (h : decision_avg_load p env s = some avg) :
    ∃ o, hotplug_timer p env s = Except.ok o ∧
      o.queued = [⟨0, o.state.hotpluging_rate⟩] ∧
      o.state.hotplug_cpu_time
        = (sample_loop env (for_each_online_cpu p s) s.hotplug_cpu_time 0).1 ∧
      (env.cpu_hotplug_ret ≠ 0 → o.state.cpu_online_mask = s.cpu_online_mask) ∧
      ((avg < s.trans_load_l ∧ cpu_online p s 1 = true) →
        o.power = [PowerRequest.cpu_down 1] ∧ o.state.hotpluging_rate = CHECK_DELAY p) ∧
      (¬ (avg < s.trans_load_l ∧ cpu_online p s 1 = true) →
        (avg > s.trans_load_h ∧ cpu_online p s 1 = false) →
        o.power = [PowerRequest.cpu_up 1] ∧ o.state.hotpluging_rate = CHECK_DELAY p * 4) ∧
      (¬ (avg < s.trans_load_l ∧ cpu_online p s 1 = true) →
        ¬ (avg > s.trans_load_h ∧ cpu_online p s 1 = false) →
        o.power = [] ∧ o.state.hotpluging_rate = s.hotpluging_rate ∧
        o.state.cpu_online_mask = s.cpu_online_mask) := by
  obtain ⟨pc, load, hl, hn, havg, -, -, ht⟩ := hotplug_timer_of_decision p env s avg h
  obtain ⟨o, ho, hq, hpc, hmask, hoff, hup, hnone⟩ :=
    decide_hotplug_ok p env { s with hotplug_cpu_time := pc } load hn
  subst havg
  refine ⟨o, ht.trans ho, hq, ?_, hmask, hoff, hup, fun h1 h2 => ?_⟩
  · rw [hpc, hl]
  · have h3 := hnone h1 h2
    exact ⟨h3.1, by rw [h3.2], by rw [h3.2]⟩

/-- The samples after a run that reaches the decision step: for every online
CPU the sample its iteration stores, for every other CPU the sample as before. -/
lemma hotplug_timer_samples (p : Platform) (env : TickEnv) (s : State) (avg : Nat)
    (h : decision_avg_load p env s = some avg) :
    ∃ o, hotplug_timer p env s = Except.ok o ∧
      (∀ i ∈ for_each_online_cpu p s,
        o.state.hotplug_cpu_time i = (loop_body env i s.hotplug_cpu_time 0).1 i) ∧
      ∀ j, j ∉ for_each_online_cpu p s →
        o.state.hotplug_cpu_time j = s.hotplug_cpu_time j := by
  obtain ⟨o, ho, -, hpc, -⟩ := hotplug_timer_decision p env s avg h
  obtain ⟨pc, load, hl, -⟩ := hotplug_timer_of_decision p env s avg h
  have hc : ∃ l, (sample_loop env (for_each_online_cpu p s) s.hotplug_cpu_time 0).2
      = LoopExit.completed l := ⟨load, by rw [hl]⟩
  obtain ⟨hin, hout⟩ := sample_loop_result env _ s.hotplug_cpu_time 0
    (for_each_online_cpu_nodup p s) hc
  exact ⟨o, ho, fun i hi => by rw [hpc]; exact hin i hi, fun j hj => by rw [hpc]; exact hout j hj⟩

/-- The decision step changes neither the lock, the saved lock, the screen flag
nor the thresholds, and the rate it leaves is the old one, `CHECK_DELAY` or
`4 * CHECK_DELAY`. -/
lemma decide_hotplug_frame (p : Platform) (env : TickEnv) (s : State) (load : Nat)
    (o : Outcome) (h : decide_hotplug p env s load = Except.ok o) :
    o.state.user_lock = s.user_lock ∧ o.state.user_lock_saved = s.user_lock_saved ∧
      o.state.screen_off = s.screen_off ∧ o.state.trans_load_l = s.trans_load_l ∧
      o.state.trans_load_h = s.trans_load_h ∧
      (o.state.hotpluging_rate = s.hotpluging_rate ∨
        o.state.hotpluging_rate = CHECK_DELAY p ∨
        o.state.hotpluging_rate = 4 * CHECK_DELAY p) := by
  unfold decide_hotplug at h
  split at h
  · cases h
  · simp only at h
    split at h
    · cases h
      unfold cpu_down no_hotplug
      split <;> exact ⟨rfl, rfl, rfl, rfl, rfl, Or.inr (Or.inl rfl)⟩
    · split at h
      · cases h
        unfold cpu_up no_hotplug
        split <;> exact ⟨rfl, rfl, rfl, rfl, rfl, Or.inr (Or.inr (Nat.mul_comm _ _))⟩
      · cases h
        exact ⟨rfl, rfl, rfl, rfl, rfl, Or.inl rfl⟩

/-- A tick changes neither the lock, the saved lock, the screen flag nor the
thresholds, and the rate it leaves is the old one, `CHECK_DELAY` or
`4 * CHECK_DELAY`. -/
lemma hotplug_timer_frame (p : Platform) (env : TickEnv) (s : State) (o : Outcome)
    (h : hotplug_timer p env s = Except.ok o) :
    o.state.user_lock = s.user_lock ∧ o.state.user_lock_saved = s.user_lock_saved ∧
      o.state.screen_off = s.screen_off ∧ o.state.trans_load_l = s.trans_load_l ∧
      o.state.trans_load_h = s.trans_load_h ∧
      (o.state.hotpluging_rate = s.hotpluging_rate ∨
        o.state.hotpluging_rate = CHECK_DELAY p ∨
        o.state.hotpluging_rate = 4 * CHECK_DELAY p) := by
  unfold hotplug_timer at h
  split at h
  · cases h; exact ⟨rfl, rfl, rfl, rfl, rfl, Or.inl rfl⟩
  · split at h
    · cases h; exact ⟨rfl, rfl, rfl, rfl, rfl, Or.inl rfl⟩
    · split at h
      · have hf := decide_hotplug_frame _ _ _ _ _ h
        exact hf
      · cases h; exact ⟨rfl, rfl, rfl, rfl, rfl, Or.inl rfl⟩
      · cases h

/-! ## The decision step (C1, C2, C3) -/

/-- C1 (power-off case): a tick that reaches the decision step with an average
load strictly below the low threshold while CPU 1 is online completes, makes
exactly one power request, `cpu_down(1)`, and leaves the sampling rate at
`CHECK_DELAY`, whatever the rate was before. -/
theorem power_off_case (p : Platform) (env : TickEnv) (s : State) (avg : Nat)
    (hreach : decision_avg_load p env s = some avg)
    (hlow : avg < s.trans_load_l) (hon : cpu_online p s 1 = true) :
    ∃ o, hotplug_timer p env s = Except.ok o ∧
      o.power = [PowerRequest.cpu_down 1] ∧ o.state.hotpluging_rate = CHECK_DELAY p := by
  obtain ⟨o, ho, -, -, -, hoff, -, -⟩ := hotplug_timer_decision p env s avg hreach
  exact ⟨o, ho, hoff ⟨hlow, hon⟩⟩

/-- Witness of C1: both cores online and 10% loaded, thresholds 20 and 60, the
rate at `4 * CHECK_DELAY` before the tick. -/
theorem power_off_case_witness :
    decision_avg_load dual_core (const_env 90 100 0)
        (sample_state 400 0 20 60 false both_cpus) = some 10 ∧
      10 < (sample_state 400 0 20 60 false both_cpus).trans_load_l ∧
      cpu_online dual_core (sample_state 400 0 20 60 false both_cpus) 1 = true ∧
      ∃ o, hotplug_timer dual_core (const_env 90 100 0)
          (sample_state 400 0 20 60 false both_cpus) = Except.ok o ∧
        o.power = [PowerRequest.cpu_down 1] ∧
        o.state.hotpluging_rate = CHECK_DELAY dual_core :=
  ⟨by decide, by decide, by decide,
    power_off_case dual_core (const_env 90 100 0)
      (sample_state 400 0 20 60 false both_cpus) 10 (by decide) (by decide) (by decide)⟩

/-- C2 (power-on case): a tick that reaches the decision step with an average
load strictly above the high threshold while CPU 1 is offline completes, makes
exactly one power request, `cpu_up(1)`, and leaves the sampling rate at
`4 * CHECK_DELAY`. -/
theorem power_on_case (p : Platform) (env : TickEnv) (s : State) (avg : Nat)
    (hreach : decision_avg_load p env s = some avg)
    (hhigh : avg > s.trans_load_h) (hoff : cpu_online p s 1 = false) :
    ∃ o, hotplug_timer p env s = Except.ok o ∧
      o.power = [PowerRequest.cpu_up 1] ∧ o.state.hotpluging_rate = 4 * CHECK_DELAY p := by
  obtain ⟨o, ho, -, -, -, -, hup, -⟩ := hotplug_timer_decision p env s avg hreach
  have h := hup (fun h => by rw [hoff] at h; exact absurd h.2 (by decide)) ⟨hhigh, hoff⟩
  exact ⟨o, ho, h.1, by rw [h.2, Nat.mul_comm]⟩

/-- Witness of C2, the example of the claim: thresholds 20 and 60, average load
61, CPU 1 offline. -/
theorem power_on_case_witness :
    decision_avg_load dual_core (const_env 39 100 0)
        (sample_state 100 0 20 60 false only_cpu0) = some 61 ∧
      61 > (sample_state 100 0 20 60 false only_cpu0).trans_load_h ∧
      cpu_online dual_core (sample_state 100 0 20 60 false only_cpu0) 1 = false ∧
      ∃ o, hotplug_timer dual_core (const_env 39 100 0)
          (sample_state 100 0 20 60 false only_cpu0) = Except.ok o ∧
        o.power = [PowerRequest.cpu_up 1] ∧
        o.state.hotpluging_rate = 4 * CHECK_DELAY dual_core :=
  ⟨by decide, by decide, by decide,
    power_on_case dual_core (const_env 39 100 0)
      (sample_state 100 0 20 60 false only_cpu0) 61 (by decide) (by decide) (by decide)⟩

/-- C3, as stated, fails when the thresholds are inverted: with `loadl = 60`,
`loadh = 20`, an average load of 40 and CPU 1 offline (the case "load below the
low threshold with CPU 1 already offline"), the tick requests `cpu_up(1)` and
moves the rate from 100 to 400. -/
theorem no_action_case_counterexample :
    decision_avg_load dual_core (const_env 60 100 0)
        (sample_state 100 0 60 20 false only_cpu0) = some 40 ∧
      40 < (sample_state 100 0 60 20 false only_cpu0).trans_load_l ∧
      cpu_online dual_core (sample_state 100 0 60 20 false only_cpu0) 1 = false ∧
      ∃ o, hotplug_timer dual_core (const_env 60 100 0)
          (sample_state 100 0 60 20 false only_cpu0) = Except.ok o ∧
        o.power = [PowerRequest.cpu_up 1] ∧
        o.state.hotpluging_rate = 400 ∧
        (sample_state 100 0 60 20 false only_cpu0).hotpluging_rate = 100 :=
  ⟨by decide, by decide, by decide, _, rfl, rfl, rfl, rfl⟩

/-- C3 (no-action case), amended: when the thresholds are ordered,
`trans_load_l <= trans_load_h`, a tick that reaches the decision step with an
average load at or between the thresholds, or below the low threshold with CPU 1
offline, or above the high threshold with CPU 1 online, completes, makes no
power request and leaves the sampling rate unchanged. -/
theorem no_action_case (p : Platform) (env : TickEnv) (s : State) (avg : Nat)
    (hord : s.trans_load_l ≤ s.trans_load_h)
    (hreach : decision_avg_load p env s = some avg)
    (hcase : (s.trans_load_l ≤ avg ∧ avg ≤ s.trans_load_h) ∨
      (avg < s.trans_load_l ∧ cpu_online p s 1 = false) ∨
      (avg > s.trans_load_h ∧ cpu_online p s 1 = true)) :
    ∃ o, hotplug_timer p env s = Except.ok o ∧
      o.power = [] ∧ o.state.hotpluging_rate = s.hotpluging_rate := by
  obtain ⟨o, ho, -, -, -, -, -, hnone⟩ := hotplug_timer_decision p env s avg hreach
  have h := hnone
    (by
      rintro ⟨h1, h2⟩
      rcases hcase with h | h | h
      · omega
      · rw [h.2] at h2; exact absurd h2 (by decide)
      · omega)
    (by
      rintro ⟨h1, h2⟩
      rcases hcase with h | h | h
      · omega
      · omega
      · rw [h.2] at h2; exact absurd h2 (by decide))
  exact ⟨o, ho, h.1, h.2.1⟩

/-- Witness of the amended C3, an example of the claim: thresholds 20 and 60,
average load 20 with CPU 1 online. -/
theorem no_action_case_witness :
    (sample_state 400 0 20 60 false both_cpus).trans_load_l
        ≤ (sample_state 400 0 20 60 false both_cpus).trans_load_h ∧
      decision_avg_load dual_core (const_env 80 100 0)
        (sample_state 400 0 20 60 false both_cpus) = some 20 ∧
      ∃ o, hotplug_timer dual_core (const_env 80 100 0)
          (sample_state 400 0 20 60 false both_cpus) = Except.ok o ∧
        o.power = [] ∧
        o.state.hotpluging_rate = (sample_state 400 0 20 60 false both_cpus).hotpluging_rate :=
  ⟨by decide, by decide,
    no_action_case dual_core (const_env 80 100 0)
      (sample_state 400 0 20 60 false both_cpus) 20 (by decide) (by decide)
      (Or.inl ⟨by decide, by decide⟩)⟩

/-! ## The per-core load (C4, C5) and the invalid measurement (C6) -/

/-- The stored load is at most 100, also when the product
`100 * (wall_time - idle_time)` wraps (the loop evaluates `load_of` only with
`wall_time > 0`). -/
lemma load_of_le (wall idle : Nat) : load_of wall idle ≤ 100 := by
  unfold load_of
  apply Nat.div_le_of_le_mul
  calc 100 * (wall - idle) % 2 ^ 32 ≤ 100 * (wall - idle) := Nat.mod_le _ _
    _ ≤ 100 * wall := Nat.mul_le_mul_left _ (Nat.sub_le _ _)
    _ = wall * 100 := Nat.mul_comm _ _

/-- When the product does not wrap, the stored load is the exact quotient. -/
lemma load_of_exact (wall idle : Nat) (h : 100 * (wall - idle) < 2 ^ 32) :
    load_of wall idle = 100 * (wall - idle) / wall := by
  unfold load_of
  rw [Nat.mod_eq_of_lt h]

/-- C4 fails on the code at a zero wall delta: both CPUs are online with stored
baselines (idle 500, wall 1000); CPU 0 reads (idle 700, wall 1500), CPU 1 reads
(idle 500, wall 1000) again, so that for CPU 1 `wall_time = idle_time = 0`.  The
test `wall_time < idle_time` is false there and the tick divides by zero. -/
theorem load_range_div_by_zero :
    idle_time (per_cpu_env (700, 1500) (500, 1000) 0)
        (with_baseline (sample_state 100 0 20 60 false both_cpus) 500 1000).hotplug_cpu_time 1
        = 0 ∧
      wall_time (per_cpu_env (700, 1500) (500, 1000) 0)
        (with_baseline (sample_state 100 0 20 60 false both_cpus) 500 1000).hotplug_cpu_time 1
        = 0 ∧
      hotplug_timer dual_core (per_cpu_env (700, 1500) (500, 1000) 0)
        (with_baseline (sample_state 100 0 20 60 false both_cpus) 500 1000)
        = Except.error Fault.div_by_zero :=
  ⟨by decide, by decide, rfl⟩

/-- C5, as stated, fails: CPU 0 has the baselines (idle 500, wall 1000) and the
counters read idle = 1000500 and wall = 4296968296, so the 64-bit deltas are
1000000 and `2 ^ 32 + 2000000`, a valid measurement whose exact quotient is 99.
The `(unsigned int)` cast keeps `wall_time = 2000000` and the tick stores 50. -/
theorem load_formula_counterexample :
    cputime64_sub 1000500 500 ≤ cputime64_sub 4296968296 1000 ∧
      0 < cputime64_sub 4296968296 1000 ∧
      100 * (cputime64_sub 4296968296 1000 - cputime64_sub 1000500 500)
        / cputime64_sub 4296968296 1000 = 99 ∧
      ∃ o, hotplug_timer dual_core (const_env 1000500 4296968296 0)
          (with_baseline (sample_state 100 0 20 60 false only_cpu0) 500 1000) = Except.ok o ∧
        (o.state.hotplug_cpu_time 0).load = 50 :=
  ⟨by decide, by decide, by decide, _, rfl, rfl⟩

/-- C5, amended: for a CPU whose measurement is valid (`idle_time <= wall_time`
and `wall_time > 0`, the deltas being the 64-bit differences truncated by the
`(unsigned int)` casts) and for which `100 * (wall_time - idle_time)` is below
`2 ^ 32`, the update of that CPU stores the exact quotient
`100 * (wall_time - idle_time) / wall_time` as its load and the current idle and
wall counters as its baselines, adds that load to the running sum, and changes
the sample of no other CPU. -/
theorem load_formula (env : TickEnv) (i : Nat) (pc : Nat → cpu_time_info) (load : Nat)
    (hle : idle_time env pc i ≤ wall_time env pc i) (hpos : 0 < wall_time env pc i)
    (hfit : 100 * (wall_time env pc i - idle_time env pc i) < 2 ^ 32) :
    ((loop_body env i pc load).1 i).load
        = 100 * (wall_time env pc i - idle_time env pc i) / wall_time env pc i ∧
      ((loop_body env i pc load).1 i).prev_cpu_idle = (env.get_cpu_idle_time_us i).1 ∧
      ((loop_body env i pc load).1 i).prev_cpu_wall = (env.get_cpu_idle_time_us i).2 ∧
      (loop_body env i pc load).2 = BodyExit.next
        ((load + 100 * (wall_time env pc i - idle_time env pc i) / wall_time env pc i)
          % 2 ^ 32) ∧
      ∀ j, j ≠ i → (loop_body env i pc load).1 j = pc j := by
  have h1 : ¬ wall_time env pc i < idle_time env pc i := Nat.not_lt.mpr hle
  have h2 : ¬ wall_time env pc i = 0 := Nat.pos_iff_ne_zero.mp hpos
  refine ⟨?_, ?_, ?_, ?_, fun j hj => loop_body_frame env i j pc load hj⟩
  all_goals
    unfold loop_body
    simp only [if_neg h1, if_neg h2, Function.update_same, load_of_exact _ _ hfit]

/-- Witness of the amended C5: zero baselines, the counters reading idle = 39
and wall = 100; the stored load is 61. -/
theorem load_formula_witness :
    ((loop_body (const_env 39 100 0) 0 (fun _ => ⟨0, 0, 0⟩) 0).1 0).load = 61 ∧
      ((loop_body (const_env 39 100 0) 0 (fun _ => ⟨0, 0, 0⟩) 0).1 0).prev_cpu_idle = 39 ∧
      ((loop_body (const_env 39 100 0) 0 (fun _ => ⟨0, 0, 0⟩) 0).1 0).prev_cpu_wall = 100 :=
  ⟨(load_formula (const_env 39 100 0) 0 (fun _ => ⟨0, 0, 0⟩) 0
      (by decide) (by decide) (by decide)).1,
    (load_formula (const_env 39 100 0) 0 (fun _ => ⟨0, 0, 0⟩) 0
      (by decide) (by decide) (by decide)).2.1,
    (load_formula (const_env 39 100 0) 0 (fun _ => ⟨0, 0, 0⟩) 0
      (by decide) (by decide) (by decide)).2.2.1⟩

/-- The product `100 * (wall_time - idle_time)` can wrap: at the first tick
after boot the baselines of CPU 0 are zero; with the counters reading
idle = 10 s and wall = 60 s (in microseconds), a valid measurement, the exact
quotient is 83 and the tick stores 11, because `100 * 50000000` wraps modulo
`2 ^ 32`. -/
theorem load_product_wraps :
    cputime64_sub 10000000 0 ≤ cputime64_sub 60000000 0 ∧
      0 < cputime64_sub 60000000 0 ∧
      100 * (cputime64_sub 60000000 0 - cputime64_sub 10000000 0) / cputime64_sub 60000000 0
        = 83 ∧
      ∃ o, hotplug_timer dual_core (const_env 10000000 60000000 0)
          (init_state dual_core only_cpu0) = Except.ok o ∧
        (o.state.hotplug_cpu_time 0).load = 11 :=
  ⟨by decide, by decide, by decide, _, rfl, rfl⟩

/-- The loop leaves by `goto no_hotplug` at the first CPU whose wall delta is
smaller than its idle delta, when every CPU visited before it has a valid
measurement. -/
lemma sample_loop_no_hotplug (env : TickEnv) (pre : List Nat) (i : Nat) (post : List Nat) :
    ∀ (pc : Nat → cpu_time_info) (load : Nat), (pre ++ i :: post).Nodup →
      (∀ j ∈ pre, measurement_valid env pc j = true) →
      wall_time env pc i < idle_time env pc i →
      (sample_loop env (pre ++ i :: post) pc load).2 = LoopExit.no_hotplug := by
  induction pre with
  | nil =>
    intro pc load _ _ hi
    simp only [List.nil_append, sample_loop, loop_body, if_pos hi]
  | cons k rest ih =>
    intro pc load hnd hpre hi
    have hnd1 : (k :: (rest ++ i :: post)).Nodup := by simpa using hnd
    have hk : k ∉ rest ++ i :: post := (List.nodup_cons.mp hnd1).1
    have hv : measurement_valid env pc k = true := hpre k (List.mem_cons_self _ _)
    obtain ⟨l, hl⟩ := (loop_body_next_iff env k pc load).mpr hv
    have hfr : ∀ j ∈ rest ++ i :: post, (loop_body env k pc load).1 j = pc j :=
      fun j hj => loop_body_frame env k j pc load (fun h => hk (h ▸ hj))
    rcases hlb : loop_body env k pc load with ⟨pc1, ex⟩
    rw [hlb] at hl hfr
    simp only at hl
    subst hl
    simp only [List.cons_append, sample_loop, hlb]
    apply ih pc1 l (List.nodup_cons.mp hnd1).2
    · intro j hj
      rw [measurement_valid_congr env pc pc1 j (hfr j (List.mem_append_left _ hj))]
      exact hpre j (List.mem_cons_of_mem _ hj)
    · have hii : pc1 i = pc i := hfr i (List.mem_append_right _ (List.mem_cons_self _ _))
      unfold wall_time idle_time at hi ⊢
      rw [hii]; exact hi

/-- A tick whose sampling loop leaves by `goto no_hotplug` completes, makes no
power request, leaves the rate as it was and queues the work once with it. -/
lemma hotplug_timer_no_hotplug (p : Platform) (env : TickEnv) (s : State)
    (h1 : ¬ (s.screen_off = true ∧ cpu_online p s 1 = false)) (h2 : s.user_lock ≠ 1)
    (hl : (sample_loop env (for_each_online_cpu p s) s.hotplug_cpu_time 0).2
      = LoopExit.no_hotplug) :
    ∃ o, hotplug_timer p env s = Except.ok o ∧ o.power = [] ∧
      o.state.hotpluging_rate = s.hotpluging_rate ∧
      o.queued = [⟨0, s.hotpluging_rate⟩] := by
  unfold hotplug_timer
  rw [if_neg h1, if_neg h2]
  rcases hlb : sample_loop env (for_each_online_cpu p s) s.hotplug_cpu_time 0 with ⟨pc, ex⟩
  rw [hlb] at hl
  simp only at hl
  subst hl
  exact ⟨_, rfl, rfl, rfl, rfl⟩

/-! ## Failure of the power change (C7) -/

/-- C7, as stated, fails: both CPUs online and 10% loaded, the rate at 400
before the tick, and `cpu_down(1)` returning `-16`.  CPU 1 stays online, yet
the rate after the tick is 100. -/
theorem power_change_failure_counterexample :
    decision_avg_load dual_core (const_env 90 100 (-16))
        (sample_state 400 0 20 60 false both_cpus) = some 10 ∧
      (const_env 90 100 (-16)).cpu_hotplug_ret ≠ 0 ∧
      (sample_state 400 0 20 60 false both_cpus).hotpluging_rate = 400 ∧
      ∃ o, hotplug_timer dual_core (const_env 90 100 (-16))
          (sample_state 400 0 20 60 false both_cpus) = Except.ok o ∧
        o.power = [PowerRequest.cpu_down 1] ∧
        cpu_online dual_core o.state 1 = true ∧
        o.state.hotpluging_rate = 100 :=
  ⟨by decide, by decide, by decide, _, rfl, rfl, rfl, rfl⟩

/-- C7, amended: when the decision of a tick is a power-off or a power-on and the
call of `cpu_down` or `cpu_up` reports failure, the online mask is as before and
the sampling rate after the tick is the rate the decision selects, `CHECK_DELAY`
for a power-off and `4 * CHECK_DELAY` for a power-on, exactly as on success; so it
equals the rate before the tick only if that was already the selected rate. -/
theorem power_change_failure (p : Platform) (env : TickEnv) (s : State) (avg : Nat)
    (hreach : decision_avg_load p env s = some avg)
    (hfail : env.cpu_hotplug_ret ≠ 0)
    (hdec : (avg < s.trans_load_l ∧ cpu_online p s 1 = true) ∨
      (avg > s.trans_load_h ∧ cpu_online p s 1 = false)) :
    ∃ o, hotplug_timer p env s = Except.ok o ∧
      o.state.cpu_online_mask = s.cpu_online_mask ∧
      o.state.hotpluging_rate =
        (if cpu_online p s 1 = true then CHECK_DELAY p else 4 * CHECK_DELAY p) ∧
      (o.state.hotpluging_rate = s.hotpluging_rate ↔
        s.hotpluging_rate =
          (if cpu_online p s 1 = true then CHECK_DELAY p else 4 * CHECK_DELAY p)) := by
  obtain ⟨o, ho, -, -, hmask, hoff, hup, -⟩ := hotplug_timer_decision p env s avg hreach
  have hrate : o.state.hotpluging_rate =
      (if cpu_online p s 1 = true then CHECK_DELAY p else 4 * CHECK_DELAY p) := by
    rcases hdec with h | h
    · rw [if_pos h.2]; exact (hoff h).2
    · have hne : ¬ cpu_online p s 1 = true := by rw [h.2]; decide
      rw [if_neg hne, Nat.mul_comm]
      exact (hup (fun h1 => hne h1.2) h).2
  exact ⟨o, ho, hmask hfail, hrate, by rw [hrate]; exact eq_comm⟩

/-- Witness of the amended C7: the input of the counterexample. -/
theorem power_change_failure_witness :
    ∃ o, hotplug_timer dual_core (const_env 90 100 (-16))
        (sample_state 400 0 20 60 false both_cpus) = Except.ok o ∧
      o.state.cpu_online_mask = (sample_state 400 0 20 60 false both_cpus).cpu_online_mask ∧
      o.state.hotpluging_rate =
        (if cpu_online dual_core (sample_state 400 0 20 60 false both_cpus) 1 = true
          then CHECK_DELAY dual_core else 4 * CHECK_DELAY dual_core) ∧
      (o.state.hotpluging_rate = (sample_state 400 0 20 60 false both_cpus).hotpluging_rate ↔
        (sample_state 400 0 20 60 false both_cpus).hotpluging_rate =
          (if cpu_online dual_core (sample_state 400 0 20 60 false both_cpus) 1 = true
            then CHECK_DELAY dual_core else 4 * CHECK_DELAY dual_core)) :=
  power_change_failure dual_core (const_env 90 100 (-16))
    (sample_state 400 0 20 60 false both_cpus) 10 (by decide) (by decide)
    (Or.inl ⟨by decide, by decide⟩)

/-! ## The lock across reboot and suspend (C8, C9) -/

/-- A tick in a locked state completes without sampling: no power request, the
state as before. -/
lemma hotplug_timer_locked (p : Platform) (env : TickEnv) (s : State)
    (h : s.user_lock = 1) :
    ∃ o, hotplug_timer p env s = Except.ok o ∧ o.state = s ∧ o.power = [] := by
  unfold hotplug_timer
  by_cases h1 : s.screen_off = true ∧ cpu_online p s 1 = false
  · rw [if_pos h1]; exact ⟨_, rfl, rfl, rfl⟩
  · rw [if_neg h1, if_pos h]; exact ⟨_, rfl, rfl, rfl⟩

/-- The effect of `run` on a sequence that starts with `e`, when the step and
the rest complete. -/
lemma run_cons_ok (p : Platform) (s : State) (e : Event) (es : List Event)
    (o o1 : Outcome) (h : step p s e = Except.ok o) (h1 : run p o.state es = Except.ok o1) :
    run p s (e :: es) = Except.ok ⟨o1.state, o.power ++ o1.power, o.queued ++ o1.queued⟩ := by
  simp only [run, h, h1]

/-- From a locked state whose saved value is 1, or on a sequence whose first
suspend/resume notification is a suspend-prepare, every sequence of events
completes and ends locked. -/
lemma run_stays_locked (p : Platform) (evs : List Event) :
    ∀ s : State, s.user_lock = 1 →
      (s.user_lock_saved = 1 ∨ first_pm_is_prepare evs = true) →
      ∃ o, run p s evs = Except.ok o ∧ o.state.user_lock = 1 := by
  induction evs with
  | nil => intro s h _; exact ⟨_, rfl, h⟩
  | cons e es ih =>
    intro s h hc
    cases e with
    | tick env =>
      obtain ⟨o, ho, hs, -⟩ := hotplug_timer_locked p env s h
      obtain ⟨o1, ho1, hl⟩ := ih o.state (by rw [hs]; exact h) (by rw [hs]; exact hc)
      exact ⟨_, run_cons_ok p s _ es o o1 ho ho1, hl⟩
    | pm_notify event =>
      have key : (s5pv310_pm_hotplug_notifier_event event s).1.user_lock = 1 ∧
          ((s5pv310_pm_hotplug_notifier_event event s).1.user_lock_saved = 1 ∨
            first_pm_is_prepare es = true) := by
        cases event with
        | PM_SUSPEND_PREPARE => exact ⟨rfl, Or.inl h⟩
        | PM_POST_RESTORE =>
          have hsaved : s.user_lock_saved = 1 := by
            rcases hc with hc | hc
            · exact hc
            · simp [first_pm_is_prepare] at hc
          exact ⟨hsaved, Or.inl hsaved⟩
        | PM_POST_SUSPEND =>
          have hsaved : s.user_lock_saved = 1 := by
            rcases hc with hc | hc
            · exact hc
            · simp [first_pm_is_prepare] at hc
          exact ⟨hsaved, Or.inl hsaved⟩
        | other code =>
          refine ⟨h, ?_⟩
          rcases hc with hc | hc
          · exact Or.inl hc
          · right; simpa [first_pm_is_prepare] using hc
      obtain ⟨o1, ho1, hl⟩ := ih (s5pv310_pm_hotplug_notifier_event event s).1 key.1 key.2
      exact ⟨_, run_cons_ok p s _ es ⟨_, [], []⟩ o1 rfl ho1, hl⟩
    | reboot_notify =>
      obtain ⟨o1, ho1, hl⟩ := ih (hotplug_reboot_notifier_call s).1 rfl hc
      exact ⟨_, run_cons_ok p s _ es ⟨_, [], []⟩ o1 rfl ho1, hl⟩
    | early_suspend =>
      obtain ⟨o1, ho1, hl⟩ := ih (hotplug_early_suspend s) h hc
      exact ⟨_, run_cons_ok p s _ es ⟨_, [], []⟩ o1 rfl ho1, hl⟩
    | late_resume =>
      obtain ⟨o1, ho1, hl⟩ := ih (hotplug_late_resume s).state h hc
      exact ⟨_, run_cons_ok p s _ es (hotplug_late_resume s) o1 rfl ho1, hl⟩

/-- From a locked state, a sequence of ticks and display events completes and
changes neither the lock nor the saved value. -/
lemma run_ticks_display_locked (p : Platform) (evs : List Event) :
    ∀ s : State, s.user_lock = 1 → (∀ e ∈ evs, is_tick_or_display e = true) →
      ∃ o, run p s evs = Except.ok o ∧ o.state.user_lock = 1 ∧
        o.state.user_lock_saved = s.user_lock_saved := by
  induction evs with
  | nil => intro s h _; exact ⟨_, rfl, h, rfl⟩
  | cons e es ih =>
    intro s h hall
    have hes : ∀ e1 ∈ es, is_tick_or_display e1 = true :=
      fun e1 he1 => hall e1 (List.mem_cons_of_mem _ he1)
    have he : is_tick_or_display e = true := hall e (List.mem_cons_self _ _)
    cases e with
    | tick env =>
      obtain ⟨o, ho, hs, -⟩ := hotplug_timer_locked p env s h
      obtain ⟨o1, ho1, hl, hsv⟩ := ih o.state (by rw [hs]; exact h) hes
      exact ⟨_, run_cons_ok p s _ es o o1 ho ho1, hl, by rw [hsv, hs]⟩
    | pm_notify event => simp [is_tick_or_display] at he
    | reboot_notify => simp [is_tick_or_display] at he
    | early_suspend =>
      obtain ⟨o1, ho1, hl, hsv⟩ := ih (hotplug_early_suspend s) h hes
      exact ⟨_, run_cons_ok p s _ es ⟨_, [], []⟩ o1 rfl ho1, hl, hsv⟩
    | late_resume =>
      obtain ⟨o1, ho1, hl, hsv⟩ := ih (hotplug_late_resume s).state h hes
      exact ⟨_, run_cons_ok p s _ es (hotplug_late_resume s) o1 rfl ho1, hl, hsv⟩

/-- From a locked state, after any events other than suspend/resume
notifications, a post-suspend or post-restore notification completes the run
and sets the lock to the saved value the run started with. -/
lemma run_then_post (p : Platform) (event : pm_event)
    (hpost : event = pm_event.PM_POST_SUSPEND ∨ event = pm_event.PM_POST_RESTORE)
    (pref : List Event) :
    ∀ s : State, s.user_lock = 1 → (∀ e ∈ pref, is_suspend_resume e = false) →
      ∃ o, run p s (pref ++ [Event.pm_notify event]) = Except.ok o ∧
        o.state.user_lock = s.user_lock_saved := by
  induction pref with
  | nil =>
    intro s _ _
    rcases hpost with h | h <;> subst h <;> exact ⟨_, rfl, rfl⟩
  | cons e es ih =>
    intro s h hall
    have hes : ∀ e1 ∈ es, is_suspend_resume e1 = false :=
      fun e1 he1 => hall e1 (List.mem_cons_of_mem _ he1)
    have he : is_suspend_resume e = false := hall e (List.mem_cons_self _ _)
    cases e with
    | tick env =>
      obtain ⟨o, ho, hs, -⟩ := hotplug_timer_locked p env s h
      obtain ⟨o1, ho1, hl⟩ := ih o.state (by rw [hs]; exact h) hes
      exact ⟨_, run_cons_ok p s _ _ o o1 ho ho1, by rw [hl, hs]⟩
    | pm_notify ev =>
      cases ev with
      | PM_SUSPEND_PREPARE => simp [is_suspend_resume] at he
      | PM_POST_RESTORE => simp [is_suspend_resume] at he
      | PM_POST_SUSPEND => simp [is_suspend_resume] at he
      | other code =>
        obtain ⟨o1, ho1, hl⟩ := ih s h hes
        exact ⟨_, run_cons_ok p s _ _ ⟨s, [], []⟩ o1 rfl ho1, hl⟩
    | reboot_notify =>
      obtain ⟨o1, ho1, hl⟩ := ih (hotplug_reboot_notifier_call s).1 rfl hes
      exact ⟨_, run_cons_ok p s _ _ ⟨_, [], []⟩ o1 rfl ho1, hl⟩
    | early_suspend =>
      obtain ⟨o1, ho1, hl⟩ := ih (hotplug_early_suspend s) h hes
      exact ⟨_, run_cons_ok p s _ _ ⟨_, [], []⟩ o1 rfl ho1, hl⟩
    | late_resume =>
      obtain ⟨o1, ho1, hl⟩ := ih (hotplug_late_resume s).state h hes
      exact ⟨_, run_cons_ok p s _ _ (hotplug_late_resume s) o1 rfl ho1, hl⟩

/-- C8, as stated, fails: from the state after module load, a reboot
notification followed by a `PM_POST_SUSPEND` notification ends with
`user_lock = 0`, the value saved before the reboot. -/
theorem reboot_terminal_counterexample :
    (hotplug_reboot_notifier_call (init_state dual_core both_cpus)).1.user_lock = 1 ∧
      ∃ o, run dual_core (hotplug_reboot_notifier_call (init_state dual_core both_cpus)).1
          [Event.pm_notify pm_event.PM_POST_SUSPEND] = Except.ok o ∧
        o.state.user_lock = 0 :=
  ⟨rfl, _, rfl, rfl⟩

/-- C8, amended: after a reboot notification `user_lock` is 1, and after any
further sequence of ticks, suspend/resume notifications, reboot notifications
and display events in which the first suspend/resume notification, if there is
one, is a suspend-prepare (or when the saved lock value was already 1 at the
reboot), the sequence completes and `user_lock` is still 1.  A post-suspend or
post-restore notification that comes first, after any events that are not
suspend/resume notifications, completes the run and restores `user_lock` to the
value saved before the reboot. -/
theorem reboot_terminal (p : Platform) (s : State) (evs : List Event)
    (h : s.user_lock_saved = 1 ∨ first_pm_is_prepare evs = true) :
    (hotplug_reboot_notifier_call s).1.user_lock = 1 ∧
      (∃ o, run p (hotplug_reboot_notifier_call s).1 evs = Except.ok o ∧
        o.state.user_lock = 1) ∧
      ∀ (pref : List Event) (event : pm_event),
        (∀ e ∈ pref, is_suspend_resume e = false) →
        (event = pm_event.PM_POST_SUSPEND ∨ event = pm_event.PM_POST_RESTORE) →
        ∃ o, run p (hotplug_reboot_notifier_call s).1 (pref ++ [Event.pm_notify event])
            = Except.ok o ∧
          o.state.user_lock = s.user_lock_saved :=
  ⟨rfl, run_stays_locked p evs (hotplug_reboot_notifier_call s).1 rfl h,
    fun pref event hpref hpost =>
      run_then_post p event hpost pref (hotplug_reboot_notifier_call s).1 rfl hpref⟩

/-- Witness of the amended C8: after the reboot, a tick, a suspend-prepare, a
post-suspend, a screen-off and a screen-on leave the lock at 1; and after the
reboot, a tick and a screen-off followed by a post-restore leave it at the
saved value 0. -/
theorem reboot_terminal_witness :
    first_pm_is_prepare
        [Event.tick (const_env 90 100 0), Event.pm_notify pm_event.PM_SUSPEND_PREPARE,
          Event.pm_notify pm_event.PM_POST_SUSPEND, Event.early_suspend, Event.late_resume]
        = true ∧
      (hotplug_reboot_notifier_call (init_state dual_core both_cpus)).1.user_lock = 1 ∧
      (∃ o, run dual_core (hotplug_reboot_notifier_call (init_state dual_core both_cpus)).1
          [Event.tick (const_env 90 100 0), Event.pm_notify pm_event.PM_SUSPEND_PREPARE,
            Event.pm_notify pm_event.PM_POST_SUSPEND, Event.early_suspend, Event.late_resume]
          = Except.ok o ∧
        o.state.user_lock = 1) ∧
      ∃ o, run dual_core (hotplug_reboot_notifier_call (init_state dual_core both_cpus)).1
          ([Event.tick (const_env 90 100 0), Event.early_suspend]
            ++ [Event.pm_notify pm_event.PM_POST_RESTORE]) = Except.ok o ∧
        o.state.user_lock = (init_state dual_core both_cpus).user_lock_saved :=
  ⟨by decide,
    (reboot_terminal dual_core (init_state dual_core both_cpus)
      [Event.tick (const_env 90 100 0), Event.pm_notify pm_event.PM_SUSPEND_PREPARE,
        Event.pm_notify pm_event.PM_POST_SUSPEND, Event.early_suspend, Event.late_resume]
      (Or.inr (by decide))).1,
    (reboot_terminal dual_core (init_state dual_core both_cpus)
      [Event.tick (const_env 90 100 0), Event.pm_notify pm_event.PM_SUSPEND_PREPARE,
        Event.pm_notify pm_event.PM_POST_SUSPEND, Event.early_suspend, Event.late_resume]
      (Or.inr (by decide))).2.1,
    (reboot_terminal dual_core (init_state dual_core both_cpus)
      [Event.tick (const_env 90 100 0), Event.pm_notify pm_event.PM_SUSPEND_PREPARE,
        Event.pm_notify pm_event.PM_POST_SUSPEND, Event.early_suspend, Event.late_resume]
      (Or.inr (by decide))).2.2
      [Event.tick (const_env 90 100 0), Event.early_suspend] pm_event.PM_POST_RESTORE
      (by decide) (Or.inr rfl)⟩

/-- C9 (suspend/resume round trip): from any state, after `PM_SUSPEND_PREPARE`
the lock is 1 and the saved value is the lock before the suspend; any sequence
of ticks and display events after it completes, and a `PM_POST_SUSPEND` or
`PM_POST_RESTORE` notification after that sets `user_lock` to exactly its value
before the suspend. -/
theorem suspend_resume_round_trip (p : Platform) (s : State) (evs : List Event)
    (event : pm_event)
    (hmid : ∀ e ∈ evs, is_tick_or_display e = true)
    (hpost : event = pm_event.PM_POST_SUSPEND ∨ event = pm_event.PM_POST_RESTORE) :
    (s5pv310_pm_hotplug_notifier_event pm_event.PM_SUSPEND_PREPARE s).1.user_lock = 1 ∧
      (s5pv310_pm_hotplug_notifier_event pm_event.PM_SUSPEND_PREPARE s).1.user_lock_saved
        = s.user_lock ∧
      ∃ o, run p (s5pv310_pm_hotplug_notifier_event pm_event.PM_SUSPEND_PREPARE s).1 evs
          = Except.ok o ∧
        (s5pv310_pm_hotplug_notifier_event event o.state).1.user_lock = s.user_lock := by
  refine ⟨rfl, rfl, ?_⟩
  obtain ⟨o, ho, -, hsv⟩ := run_ticks_display_locked p evs
    (s5pv310_pm_hotplug_notifier_event pm_event.PM_SUSPEND_PREPARE s).1 rfl hmid
  refine ⟨o, ho, ?_⟩
  have hs : o.state.user_lock_saved = s.user_lock := hsv
  rcases hpost with h | h <;> subst h <;> exact hs

/-- Witness of C9, the example of the claim: from `user_lock = 0`, a
suspend-prepare, then a tick, a screen-off and a screen-on, then a post-suspend
give `user_lock = 0`. -/
theorem suspend_resume_round_trip_witness :
    (init_state dual_core both_cpus).user_lock = 0 ∧
      ∃ o, run dual_core
          (s5pv310_pm_hotplug_notifier_event pm_event.PM_SUSPEND_PREPARE
            (init_state dual_core both_cpus)).1
          [Event.tick (const_env 90 100 0), Event.early_suspend, Event.late_resume]
          = Except.ok o ∧
        (s5pv310_pm_hotplug_notifier_event pm_event.PM_POST_SUSPEND o.state).1.user_lock = 0 :=
  ⟨rfl, (suspend_resume_round_trip dual_core (init_state dual_core both_cpus)
    [Event.tick (const_env 90 100 0), Event.early_suspend, Event.late_resume]
    pm_event.PM_POST_SUSPEND (by decide) (Or.inl rfl)).2.2⟩

/-! ## The idle exit with the screen off (C10) -/

/-- C10 (screen-off idle): in a state with `screen_off` set and CPU 1 offline, a
tick completes, makes no power request, queues no further run of the work and
leaves the whole state as it was, whatever the counters read; and so does every
sequence of ticks. -/
theorem screen_off_idle (p : Platform) (s : State)
    (hscr : s.screen_off = true) (hoff : cpu_online p s 1 = false) :
    (∀ env : TickEnv, hotplug_timer p env s = Except.ok ⟨s, [], []⟩) ∧
      ∀ envs : List TickEnv, run p s (envs.map Event.tick) = Except.ok ⟨s, [], []⟩ := by
  have h1 : ∀ env : TickEnv, hotplug_timer p env s = Except.ok ⟨s, [], []⟩ := by
    intro env
    unfold hotplug_timer
    rw [if_pos ⟨hscr, hoff⟩]
  refine ⟨h1, fun envs => ?_⟩
  induction envs with
  | nil => rfl
  | cons env rest ih =>
    exact run_cons_ok p s (Event.tick env) (rest.map Event.tick) ⟨s, [], []⟩ ⟨s, [], []⟩
      (h1 env) ih

/-- Witness of C10: the screen off, only CPU 0 online, and three ticks with
different counter readings. -/
theorem screen_off_idle_witness :
    (sample_state 400 0 20 60 true only_cpu0).screen_off = true ∧
      cpu_online dual_core (sample_state 400 0 20 60 true only_cpu0) 1 = false ∧
      run dual_core (sample_state 400 0 20 60 true only_cpu0)
          ([const_env 10 100 0, const_env 0 0 0, const_env 300 200 0].map Event.tick)
        = Except.ok ⟨sample_state 400 0 20 60 true only_cpu0, [], []⟩ :=
  ⟨rfl, by decide,
    (screen_off_idle dual_core (sample_state 400 0 20 60 true only_cpu0) rfl (by decide)).2
      [const_env 10 100 0, const_env 0 0 0, const_env 300 200 0]⟩

/-! ## The manual lock (C11) -/

/-- C11 (manual lock): in a state whose lock flag is set (`user_lock` is
`HOTPLUG_LOCKED`), a tick completes without a power request, whatever the
counters read and whatever the thresholds are, and leaves the sampling rate and
the sample of every CPU as they were. -/
theorem manual_lock (p : Platform) (env : TickEnv) (s : State)
    (hlock : s.user_lock = HOTPLUG_LOCKED) :
    ∃ o, hotplug_timer p env s = Except.ok o ∧ o.power = [] ∧
      o.state.hotpluging_rate = s.hotpluging_rate ∧
      o.state.hotplug_cpu_time = s.hotplug_cpu_time := by
  obtain ⟨o, ho, hs, hp⟩ := hotplug_timer_locked p env s hlock
  exact ⟨o, ho, hp, by rw [hs], by rw [hs]⟩

/-- Witness of C11: the lock set, both CPUs online and 10% loaded, which without
the lock is the power-off case. -/
theorem manual_lock_witness :
    (sample_state 400 1 20 60 false both_cpus).user_lock = HOTPLUG_LOCKED ∧
      ∃ o, hotplug_timer dual_core (const_env 90 100 0)
          (sample_state 400 1 20 60 false both_cpus) = Except.ok o ∧
        o.power = [] ∧
        o.state.hotpluging_rate = (sample_state 400 1 20 60 false both_cpus).hotpluging_rate ∧
        o.state.hotplug_cpu_time
          = (sample_state 400 1 20 60 false both_cpus).hotplug_cpu_time :=
  ⟨rfl, manual_lock dual_core (const_env 90 100 0)
    (sample_state 400 1 20 60 false both_cpus) rfl⟩

/-! ## The notifiers and the display handlers (C15, C16) -/

/-- C15 (frame of the trigger adapters): from every state, each PM notification
(suspend-prepare, post-suspend, post-restore or any other), the reboot
notification, the screen-off and the screen-on handler make no power request
and leave the sampling rate and the sample of every CPU unchanged; the PM and
reboot notifications also leave `screen_off` unchanged, and the two display
handlers leave `user_lock` and `user_lock_saved` unchanged. -/
theorem trigger_adapters_frame (p : Platform) (s : State) :
    (∀ event : pm_event, ∃ o, step p s (Event.pm_notify event) = Except.ok o ∧
        o.power = [] ∧ o.state.hotpluging_rate = s.hotpluging_rate ∧
        o.state.hotplug_cpu_time = s.hotplug_cpu_time ∧
        o.state.screen_off = s.screen_off) ∧
      (∃ o, step p s Event.reboot_notify = Except.ok o ∧
        o.power = [] ∧ o.state.hotpluging_rate = s.hotpluging_rate ∧
        o.state.hotplug_cpu_time = s.hotplug_cpu_time ∧
        o.state.screen_off = s.screen_off) ∧
      (∃ o, step p s Event.early_suspend = Except.ok o ∧
        o.power = [] ∧ o.state.hotpluging_rate = s.hotpluging_rate ∧
        o.state.hotplug_cpu_time = s.hotplug_cpu_time ∧
        o.state.user_lock = s.user_lock ∧ o.state.user_lock_saved = s.user_lock_saved) ∧
      (∃ o, step p s Event.late_resume = Except.ok o ∧
        o.power = [] ∧ o.state.hotpluging_rate = s.hotpluging_rate ∧
        o.state.hotplug_cpu_time = s.hotplug_cpu_time ∧
        o.state.user_lock = s.user_lock ∧ o.state.user_lock_saved = s.user_lock_saved) := by
  refine ⟨fun event => ?_, ⟨_, rfl, rfl, rfl, rfl, rfl⟩, ⟨_, rfl, rfl, rfl, rfl, rfl, rfl⟩,
    ⟨_, rfl, rfl, rfl, rfl, rfl, rfl⟩⟩
  cases event <;> exact ⟨_, rfl, rfl, rfl, rfl, rfl⟩

/-- C16 (screen-on re-arm): from every state, the screen-on handler clears
`screen_off` and queues the work exactly once, with the current sampling rate
as the delay; the screen-off handler sets `screen_off` and queues nothing. -/
theorem screen_on_rearm (p : Platform) (s : State) :
    (∃ o, step p s Event.late_resume = Except.ok o ∧
        o.state.screen_off = false ∧ o.queued = [⟨0, s.hotpluging_rate⟩] ∧
        o.state.hotpluging_rate = s.hotpluging_rate) ∧
      ∃ o, step p s Event.early_suspend = Except.ok o ∧
        o.state.screen_off = true ∧ o.queued = [] :=
  ⟨⟨_, rfl, rfl, rfl, rfl⟩, ⟨_, rfl, rfl, rfl⟩⟩

/-! ## The two sampling rates (C12) -/

/-- Every world event keeps the rate among `CHECK_DELAY` and `4 * CHECK_DELAY`. -/
lemma world_step_rate (p : Platform) (s : State) (e : WorldEvent) (o : Outcome)
    (hs : s.hotpluging_rate = CHECK_DELAY p ∨ s.hotpluging_rate = 4 * CHECK_DELAY p)
    (h : world_step p s e = Except.ok o) :
    o.state.hotpluging_rate = CHECK_DELAY p ∨ o.state.hotpluging_rate = 4 * CHECK_DELAY p := by
  cases e with
  | set_online mask => cases h; exact hs
  | handler ev =>
    cases ev with
    | tick env =>
      obtain ⟨-, -, -, -, -, hr⟩ := hotplug_timer_frame p env s o h
      rcases hr with hr | hr | hr
      · rw [hr]; exact hs
      · exact Or.inl hr
      · exact Or.inr hr
    | pm_notify event =>
      cases h
      obtain ⟨o1, ho1, -, hr, -⟩ : ∃ o1, step p s (Event.pm_notify event) = Except.ok o1 ∧
          o1.power = [] ∧ o1.state.hotpluging_rate = s.hotpluging_rate ∧ True := by
        cases event <;> exact ⟨_, rfl, rfl, rfl, trivial⟩
      cases ho1
      rw [hr]; exact hs
    | reboot_notify => cases h; exact hs
    | early_suspend => cases h; exact hs
    | late_resume => cases h; exact hs

/-- Every sequence of world events keeps the rate among `CHECK_DELAY` and
`4 * CHECK_DELAY`. -/
lemma run_world_rate (p : Platform) (evs : List WorldEvent) :
    ∀ (s : State) (o : Outcome),
      (s.hotpluging_rate = CHECK_DELAY p ∨ s.hotpluging_rate = 4 * CHECK_DELAY p) →
      run_world p s evs = Except.ok o →
      o.state.hotpluging_rate = CHECK_DELAY p ∨ o.state.hotpluging_rate = 4 * CHECK_DELAY p := by
  induction evs with
  | nil => intro s o hs h; cases h; exact hs
  | cons e es ih =>
    intro s o hs h
    simp only [run_world] at h
    rcases h1 : world_step p s e with f | o1
    · rw [h1] at h; cases h
    · rw [h1] at h
      simp only at h
      rcases h2 : run_world p o1.state es with f | o2
      · rw [h2] at h; cases h
      · rw [h2] at h
        cases h
        exact ih o1.state o2 (world_step_rate p s e o1 hs h1) h2

/-- C12 (rate invariant): in every state reached from the state after module
load, with any online mask, by a sequence of ticks (with any counter readings
and any outcome of the power change), PM and reboot notifications, display
events and changes of the set of online CPUs, the sampling rate is
`CHECK_DELAY` or `4 * CHECK_DELAY`. -/
theorem rate_invariant (p : Platform) (mask : Nat → Bool) (evs : List WorldEvent)
    (o : Outcome) (h : run_world p (init_state p mask) evs = Except.ok o) :
    o.state.hotpluging_rate = CHECK_DELAY p ∨ o.state.hotpluging_rate = 4 * CHECK_DELAY p :=
  run_world_rate p evs (init_state p mask) o (Or.inl rfl) h

/-- Witness of C12: from module load with only CPU 0 online, a tick at 61% load
that brings CPU 1 up, a suspend and resume, CPU 1 taken offline from outside, a
screen-off and screen-on, and a tick at 50% load; the run completes. -/
theorem rate_invariant_witness :
    ∃ o, run_world dual_core (init_state dual_core only_cpu0)
        [WorldEvent.handler (Event.tick (const_env 39 100 0)),
          WorldEvent.handler (Event.pm_notify pm_event.PM_SUSPEND_PREPARE),
          WorldEvent.handler (Event.pm_notify pm_event.PM_POST_SUSPEND),
          WorldEvent.set_online only_cpu0,
          WorldEvent.handler Event.early_suspend,
          WorldEvent.handler Event.late_resume,
          WorldEvent.handler (Event.tick (const_env 139 300 0))] = Except.ok o ∧
      (o.state.hotpluging_rate = CHECK_DELAY dual_core ∨
        o.state.hotpluging_rate = 4 * CHECK_DELAY dual_core) := by
  have h : ∃ o, run_world dual_core (init_state dual_core only_cpu0)
      [WorldEvent.handler (Event.tick (const_env 39 100 0)),
        WorldEvent.handler (Event.pm_notify pm_event.PM_SUSPEND_PREPARE),
        WorldEvent.handler (Event.pm_notify pm_event.PM_POST_SUSPEND),
        WorldEvent.set_online only_cpu0,
        WorldEvent.handler Event.early_suspend,
        WorldEvent.handler Event.late_resume,
        WorldEvent.handler (Event.tick (const_env 139 300 0))] = Except.ok o := ⟨_, rfl⟩
  obtain ⟨o, ho⟩ := h
  exact ⟨o, ho, rate_invariant dual_core only_cpu0 _ o ho⟩

/-! ## The average load (C13) -/

/-- An iteration that runs to its end adds the load it stored to the running
sum, modulo `2 ^ 32`, and that load is at most 100. -/
lemma loop_body_next (env : TickEnv) (i : Nat) (pc pc1 : Nat → cpu_time_info)
    (load l1 : Nat) (h : loop_body env i pc load = (pc1, BodyExit.next l1)) :
    l1 = (load + (pc1 i).load) % 2 ^ 32 ∧ (pc1 i).load ≤ 100 := by
  unfold loop_body at h
  simp only at h
  split at h
  · cases h
  · split at h
    · cases h
    · cases h
      refine ⟨?_, ?_⟩
      · simp only [Function.update_same]
      · simp only [Function.update_same]
        exact load_of_le _ _

/-- When the running sum cannot wrap, the loop that visits every CPU of the list
ends with the sum of the loads it stored for them. -/
lemma sample_loop_sum (env : TickEnv) (cpus : List Nat) :
    ∀ (pc pc2 : Nat → cpu_time_info) (load l : Nat), cpus.Nodup →
      load + 100 * cpus.length < 2 ^ 32 →
      sample_loop env cpus pc load = (pc2, LoopExit.completed l) →
      l = load + (cpus.map (fun i => (pc2 i).load)).sum ∧
        ∀ i ∈ cpus, (pc2 i).load ≤ 100 := by
  induction cpus with
  | nil =>
    intro pc pc2 load l _ _ h
    simp only [sample_loop, Prod.mk.injEq, LoopExit.completed.injEq] at h
    simp [h.2]
  | cons k rest ih =>
    intro pc pc2 load l hnd hb h
    have hk : k ∉ rest := (List.nodup_cons.mp hnd).1
    have hrest : rest.Nodup := (List.nodup_cons.mp hnd).2
    simp only [List.length_cons] at hb
    rcases hlb : loop_body env k pc load with ⟨pc1, ex⟩
    simp only [sample_loop, hlb] at h
    cases ex with
    | next l1 =>
      simp only at h
      obtain ⟨hl1, hle⟩ := loop_body_next env k pc pc1 load l1 hlb
      have hl1' : l1 = load + (pc1 k).load := by
        rw [hl1]; exact Nat.mod_eq_of_lt (by omega)
      obtain ⟨hsum, hall⟩ := ih pc1 pc2 l1 l hrest (by omega) h
      have hkk : pc2 k = pc1 k := by
        have := (sample_loop_result env rest pc1 l1 hrest ⟨l, by rw [h]⟩).2 k hk
        rw [h] at this
        exact this
      constructor
      · simp only [List.map_cons, List.sum_cons, hkk]
        omega
      · intro i hi
        rcases List.mem_cons.mp hi with e | e
        · subst e; rw [hkk]; exact hle
        · exact hall i e
    | no_hotplug => simp at h
    | div_by_zero => simp at h

/-- The number of online CPUs is at most the number of possible CPUs. -/
lemma num_online_cpus_le (p : Platform) (s : State) : num_online_cpus p s ≤ p.nr_cpu_ids := by
  unfold num_online_cpus for_each_online_cpu
  exact (List.length_filter_le _ _).trans (by rw [List.length_range])

/-- C13 (average load): on a platform whose number of possible CPUs is small
enough for the 32-bit sum of the loads not to wrap (`100 * nr_cpu_ids < 2 ^ 32`),
a tick that reaches the decision step, that is a tick in which every online CPU
has a valid measurement, decides on the sum of the loads it stored for the
online CPUs divided by the number of online CPUs, rounded down; every stored
load is at most 100 and so is the average. -/
theorem average_load (p : Platform) (env : TickEnv) (s : State) (avg : Nat)
    (hcpus : 100 * p.nr_cpu_ids < 2 ^ 32)
    (hreach : decision_avg_load p env s = some avg) :
    ∃ o, hotplug_timer p env s = Except.ok o ∧
      avg = ((for_each_online_cpu p s).map (fun i => (o.state.hotplug_cpu_time i).load)).sum
        / num_online_cpus p s ∧
      (∀ i ∈ for_each_online_cpu p s, (o.state.hotplug_cpu_time i).load ≤ 100) ∧
      avg ≤ 100 := by
  obtain ⟨o, ho, -, hpc, -⟩ := hotplug_timer_decision p env s avg hreach
  obtain ⟨pc, load, hl, hn, havg, -⟩ := hotplug_timer_of_decision p env s avg hreach
  have hlen := num_online_cpus_le p s
  have hb : 0 + 100 * (for_each_online_cpu p s).length < 2 ^ 32 := by
    unfold num_online_cpus at hlen; omega
  obtain ⟨hsum, hall⟩ := sample_loop_sum env _ s.hotplug_cpu_time pc 0 load
    (for_each_online_cpu_nodup p s) hb hl
  have hpc' : o.state.hotplug_cpu_time = pc := by rw [hpc, hl]
  have hsum' : load = ((for_each_online_cpu p s).map (fun i => (pc i).load)).sum := by
    rw [hsum, Nat.zero_add]
  refine ⟨o, ho, by rw [hpc', havg, ← hsum'], by rw [hpc']; exact hall, ?_⟩
  have hle : load ≤ num_online_cpus p s * 100 := by
    rw [hsum']
    unfold num_online_cpus
    have : ∀ cpus : List Nat, (∀ i ∈ cpus, (pc i).load ≤ 100) →
        (cpus.map (fun i => (pc i).load)).sum ≤ cpus.length * 100 := by
      intro cpus
      induction cpus with
      | nil => intro _; simp
      | cons k rest ih =>
        intro hk
        have h1 := hk k (List.mem_cons_self _ _)
        have h2 := ih (fun i hi => hk i (List.mem_cons_of_mem _ hi))
        simp only [List.map_cons, List.sum_cons, List.length_cons]
        omega
    exact this _ hall
  rw [havg]
  exact Nat.div_le_of_le_mul hle

/-- Witness of C13, the example of the claim: the stored loads 50 and 75 on two
online CPUs give the average 62. -/
theorem average_load_witness :
    decision_avg_load dual_core (per_cpu_env (50, 100) (25, 100) 0)
        (sample_state 100 0 20 60 false both_cpus) = some 62 ∧
      ∃ o, hotplug_timer dual_core (per_cpu_env (50, 100) (25, 100) 0)
          (sample_state 100 0 20 60 false both_cpus) = Except.ok o ∧
        62 = ((for_each_online_cpu dual_core (sample_state 100 0 20 60 false both_cpus)).map
            (fun i => (o.state.hotplug_cpu_time i).load)).sum
          / num_online_cpus dual_core (sample_state 100 0 20 60 false both_cpus) ∧
        (∀ i ∈ for_each_online_cpu dual_core (sample_state 100 0 20 60 false both_cpus),
          (o.state.hotplug_cpu_time i).load ≤ 100) ∧
        62 ≤ 100 :=
  ⟨by decide, average_load dual_core (per_cpu_env (50, 100) (25, 100) 0)
    (sample_state 100 0 20 60 false both_cpus) 62 (by decide) (by decide)⟩

/-! ## The sample of a core that is brought online (C14) -/

/-- The loop visits exactly the CPUs for which `cpu_online` holds. -/
lemma mem_for_each_online_cpu (p : Platform) (s : State) (i : Nat) :
    i ∈ for_each_online_cpu p s ↔ cpu_online p s i = true := by
  unfold for_each_online_cpu cpu_online
  simp [List.mem_filter, List.mem_range]

/-- The online mask after a tick that takes the power-on branch and whose
`cpu_up(1)` succeeds: the bit of CPU 1 is set. -/
lemma hotplug_timer_up_mask (p : Platform) (env : TickEnv) (s : State) (avg : Nat)
    (hreach : decision_avg_load p env s = some avg)
    (hhigh : avg > s.trans_load_h) (hoff : cpu_online p s 1 = false)
    (hret : env.cpu_hotplug_ret = 0) (o : Outcome)
    (ho : hotplug_timer p env s = Except.ok o) :
    o.state.cpu_online_mask = Function.update s.cpu_online_mask 1 true := by
  obtain ⟨pc, load, -, hn, havg, -, -, ht⟩ := hotplug_timer_of_decision p env s avg hreach
  rw [ht] at ho
  unfold decide_hotplug at ho
  have hn' : num_online_cpus p { s with hotplug_cpu_time := pc } ≠ 0 := hn
  have h1 : ¬ (load / num_online_cpus p { s with hotplug_cpu_time := pc }
      < ({ s with hotplug_cpu_time := pc } : State).trans_load_l ∧
      cpu_online p { s with hotplug_cpu_time := pc } 1 = true) := by
    rintro ⟨-, h⟩
    have h' : cpu_online p s 1 = true := h
    rw [hoff] at h'; cases h'
  have h2 : load / num_online_cpus p { s with hotplug_cpu_time := pc }
      > ({ s with hotplug_cpu_time := pc } : State).trans_load_h ∧
      cpu_online p { s with hotplug_cpu_time := pc } 1 = false :=
    ⟨by rw [havg] at hhigh; exact hhigh, hoff⟩
  simp only [if_neg hn', if_neg h1, if_pos h2] at ho
  cases ho
  unfold cpu_up no_hotplug
  simp only [if_pos hret]

/-- C14, as stated, fails: CPU 0 is the only online CPU, CPU 1 has the stale
baselines (idle 500, wall 1000) of an earlier time online, CPU 0 is 61% loaded
and the counters of CPU 1 read (idle 7000, wall 9000).  The tick brings CPU 1
online and leaves its stored baselines at (500, 1000). -/
theorem fresh_baseline_counterexample :
    ∃ o, hotplug_timer dual_core (per_cpu_env (539, 1100) (7000, 9000) 0)
        (with_baseline (sample_state 100 0 20 60 false only_cpu0) 500 1000) = Except.ok o ∧
      o.power = [PowerRequest.cpu_up 1] ∧ cpu_online dual_core o.state 1 = true ∧
      (per_cpu_env (539, 1100) (7000, 9000) 0).get_cpu_idle_time_us 1 = (7000, 9000) ∧
      (o.state.hotplug_cpu_time 1).prev_cpu_idle = 500 ∧
      (o.state.hotplug_cpu_time 1).prev_cpu_wall = 1000 :=
  ⟨_, rfl, rfl, rfl, rfl, rfl, rfl⟩

/-- C14, amended: a tick that brings CPU 1 online (it reaches the decision step
with the average load above the high threshold while CPU 1 is offline, and
`cpu_up(1)` succeeds) leaves the stored sample of CPU 1 exactly as it was before
the tick; so the deltas the next tick computes for CPU 1 are taken against the
baselines stored before the tick, whatever the counters of CPU 1 read when it
came online. -/
theorem power_on_keeps_sample (p : Platform) (env : TickEnv) (s : State) (avg : Nat)
    (hreach : decision_avg_load p env s = some avg)
    (hhigh : avg > s.trans_load_h) (hoff : cpu_online p s 1 = false)
    (hret : env.cpu_hotplug_ret = 0) :
    ∃ o, hotplug_timer p env s = Except.ok o ∧
      o.power = [PowerRequest.cpu_up 1] ∧ o.state.cpu_online_mask 1 = true ∧
      o.state.hotplug_cpu_time 1 = s.hotplug_cpu_time 1 ∧
      ∀ env2 : TickEnv,
        idle_time env2 o.state.hotplug_cpu_time 1 = idle_time env2 s.hotplug_cpu_time 1 ∧
        wall_time env2 o.state.hotplug_cpu_time 1 = wall_time env2 s.hotplug_cpu_time 1 := by
  obtain ⟨o, ho, -, -, -, -, hup, -⟩ := hotplug_timer_decision p env s avg hreach
  obtain ⟨o1, ho1, -, hout⟩ := hotplug_timer_samples p env s avg hreach
  have ho' : o1 = o := by rw [ho] at ho1; cases ho1; rfl
  subst ho'
  have hpow := (hup (fun h => by rw [hoff] at h; exact absurd h.2 (by decide)) ⟨hhigh, hoff⟩).1
  have hmask := hotplug_timer_up_mask p env s avg hreach hhigh hoff hret o1 ho
  have hnot : 1 ∉ for_each_online_cpu p s := by
    rw [mem_for_each_online_cpu, hoff]; decide
  have hsame := hout 1 hnot
  refine ⟨o1, ho, hpow, by rw [hmask, Function.update_same], hsame, fun env2 => ?_⟩
  unfold idle_time wall_time
  rw [hsame]
  exact ⟨rfl, rfl⟩

/-- Witness of the amended C14: the input of the counterexample. -/
theorem power_on_keeps_sample_witness :
    decision_avg_load dual_core (per_cpu_env (539, 1100) (7000, 9000) 0)
        (with_baseline (sample_state 100 0 20 60 false only_cpu0) 500 1000) = some 61 ∧
      ∃ o, hotplug_timer dual_core (per_cpu_env (539, 1100) (7000, 9000) 0)
          (with_baseline (sample_state 100 0 20 60 false only_cpu0) 500 1000) = Except.ok o ∧
        o.power = [PowerRequest.cpu_up 1] ∧ o.state.cpu_online_mask 1 = true ∧
        o.state.hotplug_cpu_time 1
          = (with_baseline (sample_state 100 0 20 60 false only_cpu0) 500 1000).hotplug_cpu_time 1 ∧
        ∀ env2 : TickEnv,
          idle_time env2 o.state.hotplug_cpu_time 1
            = idle_time env2
              (with_baseline (sample_state 100 0 20 60 false only_cpu0) 500 1000).hotplug_cpu_time
              1 ∧
          wall_time env2 o.state.hotplug_cpu_time 1
            = wall_time env2
              (with_baseline (sample_state 100 0 20 60 false only_cpu0) 500 1000).hotplug_cpu_time
              1 :=
  ⟨by decide, power_on_keeps_sample dual_core (per_cpu_env (539, 1100) (7000, 9000) 0)
    (with_baseline (sample_state 100 0 20 60 false only_cpu0) 500 1000) 61
    (by decide) (by decide) (by decide) (by decide)⟩

/-! ## The screen off with CPU 1 online (C17) and the rescheduling (C18) -/

/-- A tick that completes without reaching the decision step makes no power
request and leaves the rate as it was. -/
lemma hotplug_timer_no_decision (p : Platform) (env : TickEnv) (s : State) (o : Outcome)
    (hd : decision_avg_load p env s = none) (ho : hotplug_timer p env s = Except.ok o) :
    o.power = [] ∧ o.state.hotpluging_rate = s.hotpluging_rate := by
  unfold decision_avg_load at hd
  unfold hotplug_timer at ho
  by_cases h1 : s.screen_off = true ∧ cpu_online p s 1 = false
  · rw [if_pos h1] at ho; cases ho; exact ⟨rfl, rfl⟩
  rw [if_neg h1] at hd ho
  by_cases h2 : s.user_lock = 1
  · rw [if_pos h2] at ho; cases ho; exact ⟨rfl, rfl⟩
  rw [if_neg h2] at hd ho
  rcases hl : sample_loop env (for_each_online_cpu p s) s.hotplug_cpu_time 0 with ⟨pc, ex⟩
  rw [hl] at hd ho
  cases ex with
  | completed load =>
    simp only at hd ho
    by_cases h3 : num_online_cpus p s = 0
    · unfold decide_hotplug at ho
      have h3' : num_online_cpus p { s with hotplug_cpu_time := pc } = 0 := h3
      rw [if_pos h3'] at ho
      cases ho
    · rw [if_neg h3] at hd; cases hd
  | no_hotplug => simp only at ho; cases ho; exact ⟨rfl, rfl⟩
  | div_by_zero => simp only at ho; cases ho

/-- C17, as stated, fails: with the screen off, both CPUs online and 10% loaded,
the tick requests `cpu_down(1)`. -/
theorem screen_off_core_online_counterexample :
    (sample_state 400 0 20 60 true both_cpus).screen_off = true ∧
      cpu_online dual_core (sample_state 400 0 20 60 true both_cpus) 1 = true ∧
      ∃ o, hotplug_timer dual_core (const_env 90 100 0)
          (sample_state 400 0 20 60 true both_cpus) = Except.ok o ∧
        o.power = [PowerRequest.cpu_down 1] :=
  ⟨rfl, by decide, _, rfl, rfl⟩

/-- C17, amended: with the screen off and CPU 1 online at the start of a tick,
the tick decides as with the screen on: it never requests a power-on, it
requests `cpu_down(1)` exactly when it reaches the decision step with an average
load strictly below the low threshold, and in every other case in which it
completes it makes no power request; the screen flag stays set. -/
theorem screen_off_core_online (p : Platform) (env : TickEnv) (s : State)
    (hscr : s.screen_off = true) (hon : cpu_online p s 1 = true) :
    (∀ avg, decision_avg_load p env s = some avg →
        ∃ o, hotplug_timer p env s = Except.ok o ∧ o.state.screen_off = true ∧
          o.power = if avg < s.trans_load_l then [PowerRequest.cpu_down 1] else []) ∧
      (decision_avg_load p env s = none →
        ∀ o, hotplug_timer p env s = Except.ok o → o.power = []) := by
  refine ⟨fun avg hreach => ?_, fun hd o ho => (hotplug_timer_no_decision p env s o hd ho).1⟩
  · obtain ⟨o, ho, -, -, -, hoff, -, hnone⟩ := hotplug_timer_decision p env s avg hreach
    refine ⟨o, ho, by rw [(hotplug_timer_frame p env s o ho).2.2.1]; exact hscr, ?_⟩
    by_cases hlow : avg < s.trans_load_l
    · rw [if_pos hlow]; exact (hoff ⟨hlow, hon⟩).1
    · rw [if_neg hlow]
      exact (hnone (fun h => hlow h.1) (fun h => by rw [hon] at h; exact absurd h.2 (by decide))).1

/-- Witness of the amended C17: the screen off, both CPUs online and 50% loaded;
the tick reaches the decision step and makes no request. -/
theorem screen_off_core_online_witness :
    (sample_state 400 0 20 60 true both_cpus).screen_off = true ∧
      cpu_online dual_core (sample_state 400 0 20 60 true both_cpus) 1 = true ∧
      decision_avg_load dual_core (const_env 50 100 0)
        (sample_state 400 0 20 60 true both_cpus) = some 50 ∧
      ∃ o, hotplug_timer dual_core (const_env 50 100 0)
          (sample_state 400 0 20 60 true both_cpus) = Except.ok o ∧
        o.state.screen_off = true ∧
        o.power = if 50 < (sample_state 400 0 20 60 true both_cpus).trans_load_l
          then [PowerRequest.cpu_down 1] else [] :=
  ⟨rfl, by decide, by decide,
    (screen_off_core_online dual_core (const_env 50 100 0)
      (sample_state 400 0 20 60 true both_cpus) rfl (by decide)).1 50 (by decide)⟩

/-! ## Hysteresis (C19) -/

/-- The requests of a tick that reaches the decision step are those of
`hotplug_request` at its thresholds, its average load and the state of CPU 1. -/
lemma hotplug_timer_request (p : Platform) (env : TickEnv) (s : State) (avg : Nat)
    (hreach : decision_avg_load p env s = some avg) :
    ∃ o, hotplug_timer p env s = Except.ok o ∧
      o.power = (hotplug_request s.trans_load_l s.trans_load_h avg (cpu_online p s 1)).toList := by
  obtain ⟨o, ho, -, -, -, hoff, hup, hnone⟩ := hotplug_timer_decision p env s avg hreach
  refine ⟨o, ho, ?_⟩
  unfold hotplug_request
  by_cases h1 : avg < s.trans_load_l ∧ cpu_online p s 1 = true
  · rw [if_pos h1]; exact (hoff h1).1
  · rw [if_neg h1]
    by_cases h2 : avg > s.trans_load_h ∧ cpu_online p s 1 = false
    · rw [if_pos h2]; exact (hup h1 h2).1
    · rw [if_neg h2]; exact (hnone h1 h2).1

/-- C19 (hysteresis): with ordered thresholds `low <= high` and any average load
`a`, if the decision with CPU 1 offline is a power-on then the decision with
CPU 1 online is no request, and if the decision with CPU 1 online is a power-off
then the decision with CPU 1 offline is no request.  Hence, of two consecutive
ticks that reach the decision step with the same average load, the first of
which changed whether CPU 1 is online, the second completes without a power
request. -/
theorem hysteresis (low high a : Nat) (hord : low ≤ high) :
    (hotplug_request low high a false = some (PowerRequest.cpu_up 1) →
        hotplug_request low high a true = none) ∧
      (hotplug_request low high a true = some (PowerRequest.cpu_down 1) →
        hotplug_request low high a false = none) ∧
      ∀ (p : Platform) (env1 env2 : TickEnv) (s : State) (o1 : Outcome),
        s.trans_load_l = low → s.trans_load_h = high →
        decision_avg_load p env1 s = some a →
        hotplug_timer p env1 s = Except.ok o1 →
        cpu_online p o1.state 1 ≠ cpu_online p s 1 →
        decision_avg_load p env2 o1.state = some a →
        ∃ o2, hotplug_timer p env2 o1.state = Except.ok o2 ∧ o2.power = [] := by
  refine ⟨?_, ?_, ?_⟩
  · intro h
    have hgt : a > high := by
      by_contra hc
      simp [hotplug_request, hc] at h
    unfold hotplug_request
    rw [if_neg (fun h1 => absurd h1.1 (by omega)), if_neg (fun h1 => absurd h1.2 (by decide))]
  · intro h
    have hlt : a < low := by
      by_contra hc
      simp [hotplug_request, hc] at h
    unfold hotplug_request
    rw [if_neg (fun h1 => absurd h1.2 (by decide)), if_neg (fun h1 => absurd h1.1 (by omega))]
  · intro p env1 env2 s o1 hl hh hreach1 ho1 hch hreach2
    obtain ⟨o, ho, -, -, -, hoff, hup, hnone⟩ := hotplug_timer_decision p env1 s a hreach1
    have ho' : o = o1 := by rw [ho] at ho1; cases ho1; rfl
    subst ho'
    obtain ⟨-, -, -, hl1, hh1, -⟩ := hotplug_timer_frame p env1 s o ho
    obtain ⟨o2, ho2, -, -, -, -, -, hnone2⟩ := hotplug_timer_decision p env2 o.state a hreach2
    refine ⟨o2, ho2, ?_⟩
    rw [hl1, hh1, hl, hh] at hnone2
    rw [hl] at hoff hup hnone
    rw [hh] at hup hnone
    by_cases hA : a < low ∧ cpu_online p s 1 = true
    · have hoff2 : cpu_online p o.state 1 = false := by
        rw [hA.2] at hch
        cases hc : cpu_online p o.state 1
        · rfl
        · exact absurd hc hch
      exact (hnone2 (fun h => by rw [hoff2] at h; exact absurd h.2 (by decide))
        (fun h => by omega)).1
    · by_cases hB : a > high ∧ cpu_online p s 1 = false
      · have hon2 : cpu_online p o.state 1 = true := by
          rw [hB.2] at hch
          cases hc : cpu_online p o.state 1
          · exact absurd hc hch
          · rfl
        exact (hnone2 (fun h => by omega)
          (fun h => by rw [hon2] at h; exact absurd h.2 (by decide))).1
      · have hmask := (hnone hA hB).2.2
        exfalso
        apply hch
        unfold cpu_online
        rw [hmask]

/-- Witness of C19: the thresholds 20 and 60 and the average load 61. -/
theorem hysteresis_witness :
    hotplug_request 20 60 61 false = some (PowerRequest.cpu_up 1) ∧
      hotplug_request 20 60 61 true = none :=
  ⟨by decide, (hysteresis 20 60 61 (by decide)).1 (by decide)⟩

/-! ## The samples after an invalid measurement (C20) -/

/-- The sample an iteration with a valid measurement stores: the current
counters and the new load. -/
lemma loop_body_valid_sample (env : TickEnv) (i : Nat) (pc : Nat → cpu_time_info)
    (load : Nat) (h : measurement_valid env pc i = true) :
    (loop_body env i pc load).1 i
      = ⟨(env.get_cpu_idle_time_us i).1, (env.get_cpu_idle_time_us i).2,
        load_of (wall_time env pc i) (idle_time env pc i)⟩ := by
  unfold measurement_valid at h
  simp only [Bool.and_eq_true, decide_eq_true_eq] at h
  unfold loop_body
  simp only [if_neg (Nat.not_lt.mpr h.1), if_neg (Nat.pos_iff_ne_zero.mp h.2),
    Function.update_same]

/-- The sample an iteration with `wall_time < idle_time` stores: the current
counters and the old load. -/
lemma loop_body_invalid_sample (env : TickEnv) (i : Nat) (pc : Nat → cpu_time_info)
    (load : Nat) (h : wall_time env pc i < idle_time env pc i) :
    (loop_body env i pc load).1 i
      = ⟨(env.get_cpu_idle_time_us i).1, (env.get_cpu_idle_time_us i).2, (pc i).load⟩ := by
  unfold loop_body
  simp only [if_pos h, Function.update_same]

/-- The array the loop leaves when it exits at CPU `i` by `goto no_hotplug`
after valid measurements of the CPUs `pre`: the iterations of `pre` and of `i`
have stored their samples, every other sample is as before. -/
lemma sample_loop_invalid_result (env : TickEnv) (pre : List Nat) (i : Nat)
    (post : List Nat) :
    ∀ (pc : Nat → cpu_time_info) (load : Nat), (pre ++ i :: post).Nodup →
      (∀ j ∈ pre, measurement_valid env pc j = true) →
      wall_time env pc i < idle_time env pc i →
      (sample_loop env (pre ++ i :: post) pc load).1 i = (loop_body env i pc 0).1 i ∧
        (∀ j ∈ pre, (sample_loop env (pre ++ i :: post) pc load).1 j
          = (loop_body env j pc 0).1 j) ∧
        ∀ j, j ∉ pre → j ≠ i → (sample_loop env (pre ++ i :: post) pc load).1 j = pc j := by
  induction pre with
  | nil =>
    intro pc load _ _ hi
    have hr : (sample_loop env ([] ++ i :: post) pc load).1 = (loop_body env i pc load).1 := by
      simp only [List.nil_append, sample_loop, loop_body, if_pos hi]
    rw [hr]
    exact ⟨loop_body_congr env i pc pc 0 load rfl, fun j hj => absurd hj (List.not_mem_nil j),
      fun j _ hji => loop_body_frame env i j pc load hji⟩
  | cons k rest ih =>
    intro pc load hnd hpre hi
    have hnd1 : (k :: (rest ++ i :: post)).Nodup := by simpa using hnd
    have hk : k ∉ rest ++ i :: post := (List.nodup_cons.mp hnd1).1
    have hkr : k ∉ rest := fun h => hk (List.mem_append_left _ h)
    have hki : k ≠ i := fun h => hk (h ▸ List.mem_append_right _ (List.mem_cons_self _ _))
    have hv : measurement_valid env pc k = true := hpre k (List.mem_cons_self _ _)
    obtain ⟨l, hl⟩ := (loop_body_next_iff env k pc load).mpr hv
    have hfr : ∀ j, j ≠ k → (loop_body env k pc load).1 j = pc j :=
      fun j hj => loop_body_frame env k j pc load hj
    have hkk : (loop_body env k pc load).1 k = (loop_body env k pc 0).1 k :=
      loop_body_congr env k pc pc 0 load rfl
    rcases hlb : loop_body env k pc load with ⟨pc1, ex⟩
    rw [hlb] at hl hfr hkk
    simp only at hl
    subst hl
    have hr : (sample_loop env (k :: rest ++ i :: post) pc load).1
        = (sample_loop env (rest ++ i :: post) pc1 l).1 := by
      simp only [List.cons_append, sample_loop, hlb]
      rfl
    rw [hr]
    have hii : pc1 i = pc i := hfr i (fun h => hki h.symm)
    obtain ⟨h1, h2, h3⟩ := ih pc1 l (List.nodup_cons.mp hnd1).2
      (fun j hj => by
        have hjk : j ≠ k := fun e => hkr (e ▸ hj)
        rw [measurement_valid_congr env pc pc1 j (hfr j hjk)]
        exact hpre j (List.mem_cons_of_mem _ hj))
      (by unfold wall_time idle_time at hi ⊢; rw [hii]; exact hi)
    refine ⟨?_, ?_, ?_⟩
    · rw [h1]; exact loop_body_congr env i pc pc1 0 0 hii
    · intro j hj
      rcases List.mem_cons.mp hj with e | e
      · subst e; rw [h3 j hkr hki]; exact hkk
      · have hjk : j ≠ k := fun e1 => hkr (e1 ▸ e)
        rw [h2 j e]; exact loop_body_congr env j pc pc1 0 0 (hfr j hjk)
    · intro j hj hji
      have hjk : j ≠ k := fun e => hj (e ▸ List.mem_cons_self _ _)
      have hjr : j ∉ rest := fun e => hj (List.mem_cons_of_mem _ e)
      rw [h3 j hjr hji]; exact hfr j hjk

/-- C20 (baselines advance on an invalid measurement): in a tick that starts
sampling, let CPU `i` be the first online CPU with `wall_time < idle_time`, the
online CPUs `pre` visited before it all having valid measurements, so that the
loop reaches it.  The tick completes without a power request, and afterwards the
stored baselines of CPU `i` are the current counters while its stored load is
the old one, every CPU of `pre` has its baselines and its load updated, and the
sample of every CPU after `i` in iteration order (and of every other CPU) is
unchanged. -/
theorem baselines_advance_on_invalid (p : Platform) (env : TickEnv) (s : State)
    (pre : List Nat) (i : Nat) (post : List Nat)
    (hidle : ¬ (s.screen_off = true ∧ cpu_online p s 1 = false))
    (hlock : s.user_lock ≠ 1)
    (hcpus : for_each_online_cpu p s = pre ++ i :: post)
    (hpre : ∀ j ∈ pre, measurement_valid env s.hotplug_cpu_time j = true)
    (hinv : wall_time env s.hotplug_cpu_time i < idle_time env s.hotplug_cpu_time i) :
    ∃ o, hotplug_timer p env s = Except.ok o ∧ o.power = [] ∧
      o.state.hotplug_cpu_time i
        = ⟨(env.get_cpu_idle_time_us i).1, (env.get_cpu_idle_time_us i).2,
          (s.hotplug_cpu_time i).load⟩ ∧
      (∀ j ∈ pre, o.state.hotplug_cpu_time j
        = ⟨(env.get_cpu_idle_time_us j).1, (env.get_cpu_idle_time_us j).2,
          load_of (wall_time env s.hotplug_cpu_time j) (idle_time env s.hotplug_cpu_time j)⟩) ∧
      (∀ j ∈ post, o.state.hotplug_cpu_time j = s.hotplug_cpu_time j) ∧
      ∀ j, j ∉ for_each_online_cpu p s → o.state.hotplug_cpu_time j = s.hotplug_cpu_time j := by
  have hnd : (pre ++ i :: post).Nodup := hcpus ▸ for_each_online_cpu_nodup p s
  have hexit := sample_loop_no_hotplug env pre i post s.hotplug_cpu_time 0 hnd hpre hinv
  obtain ⟨h1, h2, h3⟩ :=
    sample_loop_invalid_result env pre i post s.hotplug_cpu_time 0 hnd hpre hinv
  have ht : hotplug_timer p env s = Except.ok
      (no_hotplug { s with hotplug_cpu_time :=
        (sample_loop env (pre ++ i :: post) s.hotplug_cpu_time 0).1 } []) := by
    unfold hotplug_timer
    rw [if_neg hidle, if_neg hlock, hcpus]
    rcases hlb : sample_loop env (pre ++ i :: post) s.hotplug_cpu_time 0 with ⟨pc, ex⟩
    rw [hlb] at hexit
    simp only at hexit
    subst hexit
    rfl
  have hsplit : ∀ j, j ∈ post → j ∉ pre ∧ j ≠ i := by
    intro j hj
    have hd := List.nodup_append.mp hnd
    have hni : i ∉ post := (List.nodup_cons.mp hd.2.1).1
    refine ⟨fun hjp => ?_, fun e => hni (e ▸ hj)⟩
    exact List.disjoint_left.mp hd.2.2 hjp (List.mem_cons_of_mem _ hj)
  refine ⟨_, ht, rfl, ?_, ?_, ?_, ?_⟩
  · show (sample_loop env (pre ++ i :: post) s.hotplug_cpu_time 0).1 i = _
    rw [h1]; exact loop_body_invalid_sample env i _ 0 hinv
  · intro j hj
    show (sample_loop env (pre ++ i :: post) s.hotplug_cpu_time 0).1 j = _
    rw [h2 j hj]; exact loop_body_valid_sample env j _ 0 (hpre j hj)
  · intro j hj
    exact h3 j (hsplit j hj).1 (hsplit j hj).2
  · intro j hj
    rw [hcpus] at hj
    exact h3 j (fun e => hj (List.mem_append_left _ e))
      (fun e => hj (e ▸ List.mem_append_right _ (List.mem_cons_self _ _)))

/-- Witness of C20: three CPUs online with the stale baselines (idle 500,
wall 1000) and stored load 0; CPU 0 reads (idle 700, wall 1500), CPU 1 and CPU 2
read (idle 900, wall 1100).  CPU 0 is updated with load 60, CPU 1 gets the new
baselines and keeps its load, CPU 2 is untouched. -/
theorem baselines_advance_on_invalid_witness :
    for_each_online_cpu tri_core
        (with_baseline (sample_state 100 0 20 60 false three_cpus) 500 1000) = [0] ++ 1 :: [2] ∧
      ∃ o, hotplug_timer tri_core (per_cpu_env (700, 1500) (900, 1100) 0)
          (with_baseline (sample_state 100 0 20 60 false three_cpus) 500 1000) = Except.ok o ∧
        o.power = [] ∧
        o.state.hotplug_cpu_time 1 = ⟨900, 1100, 0⟩ ∧
        o.state.hotplug_cpu_time 0 = ⟨700, 1500, 60⟩ ∧
        o.state.hotplug_cpu_time 2 = ⟨500, 1000, 0⟩ := by
  obtain ⟨o, ho, hp, h1, h0, h2, -⟩ := baselines_advance_on_invalid tri_core
    (per_cpu_env (700, 1500) (900, 1100) 0)
    (with_baseline (sample_state 100 0 20 60 false three_cpus) 500 1000) [0] 1 [2]
    (by decide) (by decide) (by decide) (by decide) (by decide)
  exact ⟨by decide, o, ho, hp, h1, h0 0 (List.mem_singleton.mpr rfl),
    h2 2 (List.mem_singleton.mpr rfl)⟩

/-! ## Ticks that complete: the invalid measurement (C6) and the rescheduling (C18) -/

end PmHotplug
